import Mathlib

/-!
Verification of the message ingestion-and-normalization pipeline of the
telegram-chat-html-exporter repository, as a shallow embedding in Lean 4.

Python strings are modelled as `List Char`; Python sets of strings as lists
(only emptiness / membership / "any" are ever used on them); machine integers
as `Nat` (no overflow is possible in the modelled code paths); `None` as
`Option.none`.  External collaborators (the Telethon API client, `zoneinfo`
date formatting, the filesystem) are abstracted as oracle parameters, exactly
as the spec declares them out of scope.
-/

/-- Python `str` modelled as a list of characters. -/
abbrev Str := List Char

/-- Model of Python `str.lower()`.  Full Unicode case folding is abstracted to
`Char.toLower`; every modelled code path applies the same lowering on both
sides of a comparison, so the claims are parametric in it. -/
def pyLower (s : Str) : Str := s.map Char.toLower

/-- Python substring containment `needle in hay` (contiguous substring). -/
def strIn (needle : Str) : Str → Bool
  | [] => needle.isEmpty
  | c :: t => needle.isPrefixOf (c :: t) || strIn needle t

/-- Stable insertion into a sorted list: `x` is placed before the first
element `y` with `le x y`, so earlier input elements stay before later
equal-key elements — the observable behavior of Python's stable `list.sort`. -/
def pyInsert {α : Type} (le : α → α → Bool) (x : α) : List α → List α
  | [] => [x]
  | y :: ys => if le x y then x :: y :: ys else y :: pyInsert le x ys

/-- Stable sort modelling Python `list.sort(key=...)` (any two stable sorts by
the same key agree, so insertion sort is observationally faithful). -/
def pySortBy {α : Type} (le : α → α → Bool) : List α → List α
  | [] => []
  | x :: xs => pyInsert le x (pySortBy le xs)

/-- Decimal digits of a natural number. -/
def natDigits (n : Nat) : Str := Nat.toDigits 10 n

/-! ## Data model: raw Telegram messages (telethon `Message`, read-only) -/

/-- A service/action payload on a raw message (`msg.action`).  `type_name` is
the Python class name of the action object; `title`/`message` model the
optional payload attributes read by `_analyze_service_message`. -/
structure ActionData where
  type_name : Str
  title : Option Str
  message : Option Str
deriving DecidableEq

/-- `msg.reply_to` header. -/
structure ReplyHeader where
  reply_to_msg_id : Option Nat
  forum_topic : Bool
  reply_to_top_id : Option Nat
deriving DecidableEq

/-- A reaction object (`result.reaction`); `emoticon = []` models a missing or
empty (falsy) emoticon attribute. -/
structure Reaction where
  emoticon : Str
deriving DecidableEq

/-- One entry of `msg.reactions.results`. -/
structure ReactionResult where
  reaction : Option Reaction
  count : Nat
deriving DecidableEq

/-- One document attribute; `file_name = []` models a missing or empty (falsy)
`file_name`. -/
structure DocAttr where
  file_name : Str
deriving DecidableEq

/-- A telethon `Document`. -/
structure Document where
  attributes : List DocAttr
  mime_type : Str
  size : Nat
deriving DecidableEq

/-- The media payload of a message: `MessageMediaPhoto`, `MessageMediaDocument`
(whose `document` field may be `None`), or any other media class. -/
inductive MediaPayload where
  | photo
  | document (doc : Option Document)
  | webpage
deriving DecidableEq

/-- Sender of a message; `username = []` models a missing/empty username. -/
structure SenderInfo where
  id : Nat
  username : Str
deriving DecidableEq

/-- A raw Telegram message as consumed by the pipeline.  The boolean fields
model telethon's computed media-kind flags (`msg.video_note`, `msg.video`,
`msg.voice`, `msg.audio`, `msg.gif`).  `message` is `msg.message` (raw text,
used by the filter) and `text` is `msg.text` (formatted text, used by the
renderer); the empty list models both `None` and `""` (only truthiness and
content are ever used).  `date` is the UTC timestamp as a totally ordered
number. -/
structure RawMsg where
  id : Nat
  date : Nat
  grouped_id : Option Nat
  message : Str
  text : Str
  action : Option ActionData
  reply_to : Option ReplyHeader
  reactions : Option (List ReactionResult)
  media : Option MediaPayload
  sender : Option SenderInfo
  video_note : Bool
  video : Bool
  voice : Bool
  audio : Bool
  gif : Bool
deriving DecidableEq

/-- Truthiness of `msg.grouped_id` (`None` and `0` are falsy in Python). -/
def groupKey (m : RawMsg) : Option Nat :=
  match m.grouped_id with
  | some g => if g = 0 then none else some g
  | none => none

/-! ## Filter Engine (`src/services/message_filter.py`) -/

/-- The filtering slice of `ExportConfig`. -/
structure FilterConfig where
  include_substrings : List Str
  exclude_substrings : List Str
  case_sensitive : Bool
deriving DecidableEq

/-- `MessageFilter._contains_any_substring`. -/
def contains_any_substring (cs : Bool) (text : Str) (substrings : List Str) : Bool :=
  if text.isEmpty || substrings.isEmpty then false
  else
    let search_text := if cs then text else pyLower text
    substrings.any fun substring =>
      let search_substring := if cs then substring else pyLower substring
      strIn search_substring search_text

/-- `MessageFilter.should_include_raw_message`. -/
def should_include_raw_message (f : FilterConfig) (m : RawMsg) : Bool :=
  if m.action.isSome then true
  else if f.include_substrings.isEmpty && f.exclude_substrings.isEmpty then true
  else if m.message.isEmpty then f.include_substrings.isEmpty
  else if !f.include_substrings.isEmpty &&
          !contains_any_substring f.case_sensitive m.message f.include_substrings then false
  else if !f.exclude_substrings.isEmpty &&
          contains_any_substring f.case_sensitive m.message f.exclude_substrings then false
  else true

/-- Modelled from the spec (§4.2): the spec's notion of the body "matching" a
filter member under the configured case sensitivity — the member is a
contiguous substring of the body, both sides lowered when case-insensitive. -/
def specMatchesMember (cs : Bool) (body member : Str) : Bool :=
  strIn (if cs then member else pyLower member) (if cs then body else pyLower body)

/-- Modelled from the spec (§4.2): the six-rule reference definition of
`admits`, written rule by rule in the spec's order.  This is the spec-side
definition that claim C1 compares against the source-side
`should_include_raw_message`. -/
def admits_spec (f : FilterConfig) (m : RawMsg) : Bool :=
  if m.action.isSome then true
  else if f.include_substrings.isEmpty && f.exclude_substrings.isEmpty then true
  else if m.message.isEmpty then f.include_substrings.isEmpty
  else if !f.include_substrings.isEmpty &&
          f.include_substrings.all (fun s => !specMatchesMember f.case_sensitive m.message s) then
    false
  else if !f.exclude_substrings.isEmpty &&
          f.exclude_substrings.any (fun s => specMatchesMember f.case_sensitive m.message s) then
    false
  else true

/-! ## Group-aware filtering (`MessageProcessor._filter_grouped_messages`) -/

/-- The loop of `_filter_grouped_messages` over the album dictionary: a group
is kept (whole and unchanged) when at least one member passes the filter,
otherwise all its members are counted as excluded. -/
def filterGroupedAux (f : FilterConfig) :
    List (Nat × List RawMsg) → List (Nat × List RawMsg) × Nat
  | [] => ([], 0)
  | g :: gs =>
    let rest := filterGroupedAux f gs
    if g.2.any (fun m => should_include_raw_message f m) then
      (g :: rest.1, rest.2)
    else
      (rest.1, g.2.length + rest.2)

/-- The loop of `_filter_grouped_messages` over the single messages. -/
def filterSinglesAux (f : FilterConfig) : List RawMsg → List RawMsg × Nat
  | [] => ([], 0)
  | m :: ms =>
    let rest := filterSinglesAux f ms
    if should_include_raw_message f m then
      (m :: rest.1, rest.2)
    else
      (rest.1, 1 + rest.2)

/-- `MessageProcessor._filter_grouped_messages`: returns the filtered album
map (in dictionary order), the filtered singles (in order), and the number of
excluded raw messages. -/
def filter_grouped_messages (f : FilterConfig) (grouped : List (Nat × List RawMsg))
    (singles : List RawMsg) : List (Nat × List RawMsg) × List RawMsg × Nat :=
  let fg := filterGroupedAux f grouped
  let fs := filterSinglesAux f singles
  (fg.1, fs.1, fg.2 + fs.2)

/-! ## Link Rewriter (`src/renderers/message_renderer.py`)

The three anchor patterns are deterministic: every `\d+`, `\s+`, `[^>]*` and
`[^"]*` occurrence is followed by a character disjoint from its own class, so
Python's backtracking can never find a match that maximal-munch parsing
misses, and the lazy groups (`(?:\?[^"]*)??` and `(.*?)`) are resolved by the
first character (`"` vs `?`) and the earliest `</a>` respectively.  The
matchers below are therefore direct parsers; `subst` reproduces `re.sub`'s
leftmost non-overlapping scan. -/

/-- `\d` on the ASCII digits (the modelled ids are ASCII decimal numbers). -/
def isReDigit (c : Char) : Bool := decide ('0' ≤ c) && decide (c ≤ '9')

/-- `\s` (the ASCII whitespace class; the exotic Unicode members of Python's
`\s` never occur in the modelled inputs). -/
def isReSpace (c : Char) : Bool :=
  c = ' ' || c = '\t' || c = '\n' || c = '\r' || c = '\x0b' || c = '\x0c'

/-- Case-insensitive literal match (`re.IGNORECASE`); the pattern literal is
given in lowercase.  Returns the rest of the input. -/
def parseLitCI : Str → Str → Option Str
  | [], s => some s
  | _ :: _, [] => none
  | l :: ls, c :: s => if c.toLower = l then parseLitCI ls s else none

/-- Case-sensitive literal match (for the un-flagged inner `re.sub`). -/
def parseLitCS : Str → Str → Option Str
  | [], s => some s
  | _ :: _, [] => none
  | l :: ls, c :: s => if c = l then parseLitCS ls s else none

/-- `\d+` (maximal munch): the digit run and the rest. -/
def parseDigits1Aux : Str → Str × Str
  | [] => ([], [])
  | c :: s =>
    if isReDigit c then
      let r := parseDigits1Aux s
      (c :: r.1, r.2)
    else ([], c :: s)

/-- `(\d+)`. -/
def parseDigits1 (s : Str) : Option (Str × Str) :=
  let r := parseDigits1Aux s
  if r.1.isEmpty then none else some r

/-- `\s+` (maximal munch). -/
def parseWs1Aux : Str → Str × Str
  | [] => ([], [])
  | c :: s =>
    if isReSpace c then
      let r := parseWs1Aux s
      (c :: r.1, r.2)
    else ([], c :: s)

/-- `\s+`. -/
def parseWs1 (s : Str) : Option (Str × Str) :=
  let r := parseWs1Aux s
  if r.1.isEmpty then none else some r

/-- After `(?:\?...)` : `[^"]*` up to and over the closing quote. -/
def parseToQuote : Str → Option Str
  | [] => none
  | c :: s => if c = '"' then some s else parseToQuote s

/-- `(?:\?[^"]*)??"` — the lazy optional query: an immediate `"` or a
`?`-query scanned greedily to the quote (the two branches are decided by the
next character, so no backtracking interplay exists). -/
def parseQueryQuote : Str → Option Str
  | [] => none
  | c :: s =>
    if c = '"' then some s
    else if c = '?' then parseToQuote s
    else none

/-- `([^>]*)>`: the attribute capture and the rest past `>`. -/
def parseAttrsAux : Str → Option (Str × Str)
  | [] => none
  | c :: s =>
    if c = '>' then some ([], s)
    else
      match parseAttrsAux s with
      | some (a, r) => some (c :: a, r)
      | none => none

/-- `(.*?)</a>` under `DOTALL`+`IGNORECASE`: the text up to the earliest
(case-insensitive) `</a>`, and the rest past it. -/
def parseUntilCloseA : Str → Option (Str × Str)
  | [] => none
  | c :: s =>
    match parseLitCI ('<' :: '/' :: 'a' :: '>' :: []) (c :: s) with
    | some r => some ([], r)
    | none =>
      match parseUntilCloseA s with
      | some (t, r) => some (c :: t, r)
      | none => none

/-- `<a\s+` (case-insensitive `<a`, then mandatory whitespace). -/
def parseAnchorStart (s : Str) : Option Str :=
  match parseLitCI ('<' :: 'a' :: []) s with
  | some r1 =>
    match parseWs1 r1 with
    | some (_, r2) => some r2
    | none => none
  | none => none

/-- Captured groups of one anchor match: chat id digits, second number
(topic id for forum patterns, message id for the flat pattern), optional
third number (forum message id), attribute capture, link text. -/
structure LinkMatch where
  chat : Str
  num2 : Str
  num3 : Option Str
  attrs : Str
  text : Str
deriving DecidableEq

/-- Shared head of all three patterns:
`<a\s+href="https://t\.me/c/(\d+)/(\d+)` — returns (chat digits, second
number digits, rest after the second number). -/
def parseLinkHead (s : Str) : Option (Str × Str × Str) :=
  match parseAnchorStart s with
  | none => none
  | some r2 =>
    match parseLitCI "href=\"https://t.me/c/".data r2 with
    | none => none
    | some r3 =>
      match parseDigits1 r3 with
      | none => none
      | some (c1, r4) =>
        match r4 with
        | '/' :: r5 =>
          match parseDigits1 r5 with
          | none => none
          | some (n2, r6) => some (c1, n2, r6)
        | _ => none

/-- Shared tail of all three patterns: `(?:\?[^"]*)??"([^>]*)>(.*?)</a>` —
returns (attrs, text, rest). -/
def parseLinkTail (s : Str) : Option (Str × Str × Str) :=
  match parseQueryQuote s with
  | none => none
  | some r9 =>
    match parseAttrsAux r9 with
    | none => none
    | some (attrs, r10) =>
      match parseUntilCloseA r10 with
      | some (text, r11) => some (attrs, text, r11)
      | none => none

/-- `FORUM_MESSAGE_LINK_PATTERN` (`/c/(\d+)/(\d+)/(\d+)`) as a matcher at the
head of the input; returns the groups and the unconsumed rest. -/
def matchForumMsgLink (s : Str) : Option (LinkMatch × Str) :=
  match parseLinkHead s with
  | some (c1, n2, '/' :: r7) =>
    match parseDigits1 r7 with
    | some (n3, r8) =>
      match parseLinkTail r8 with
      | some (attrs, text, rest) => some (⟨c1, n2, some n3, attrs, text⟩, rest)
      | none => none
    | none => none
  | _ => none

/-- The two-number patterns: `FORUM_TOPIC_LINK_PATTERN` (with the
`(?!/\d+)` negative lookahead) when `lookahead` is true, and
`REGULAR_MESSAGE_LINK_PATTERN` (no lookahead) when it is false. -/
def matchTwoNumLink (lookahead : Bool) (s : Str) : Option (LinkMatch × Str) :=
  match parseLinkHead s with
  | some (c1, n2, r6) =>
    if lookahead && (match r6 with
        | '/' :: d :: _ => isReDigit d
        | _ => false) then none
    else
      match parseLinkTail r6 with
      | some (attrs, text, rest) => some (⟨c1, n2, none, attrs, text⟩, rest)
      | none => none
  | none => none

/-- The scanning worker of `re.sub`, structurally recursive on a fuel that
the wrapper instantiates with the input length (each step consumes at least
one character, so the fuel is never exhausted on the wrapper's call). -/
def substFuel {G : Type} (μ : Str → Option (G × Str)) (rep : G → Str → Str) :
    Nat → Str → Str
  | _, [] => []
  | 0, s => s
  | fuel + 1, c :: rest =>
    match μ (c :: rest) with
    | none => c :: substFuel μ rep fuel rest
    | some (g, r) =>
      let n := (c :: rest).length - r.length
      rep g ((c :: rest).take n) ++ substFuel μ rep fuel ((c :: rest).drop (max n 1))

/-- `re.sub`'s leftmost non-overlapping scan: at each position try the
matcher; on a match, emit the replacement (which receives the captured groups
and the matched slice, i.e. `match.group(0)`) and resume after the match;
otherwise keep the character and move on. -/
def subst {G : Type} (μ : Str → Option (G × Str)) (rep : G → Str → Str)
    (s : Str) : Str :=
  substFuel μ rep s.length s

/-- The `class="([^"]*)"` capture for the inner (case-sensitive) `re.sub`. -/
def parseClassVal : Str → Option (Str × Str)
  | [] => none
  | c :: s =>
    if c = '"' then some ([], s)
    else
      match parseClassVal s with
      | some (v, r) => some (c :: v, r)
      | none => none

/-- Matcher for `class="([^"]*)"`. -/
def matchClassAttr (s : Str) : Option (Str × Str) :=
  match parseLitCS "class=\"".data s with
  | none => none
  | some r =>
    match parseClassVal r with
    | some (v, rest) => some (v, rest)
    | none => none

/-- The shared class-injection step of all three replacers: if the attribute
capture contains `class=`, run
`re.sub(r'class="([^"]*)"', r'class="\1 internal-link"', attributes)`;
otherwise prepend a fresh ` class="internal-link"`. -/
def addInternalClass (attributes : Str) : Str :=
  if strIn "class=".data attributes then
    subst matchClassAttr
      (fun v _ => "class=\"".data ++ v ++ " internal-link\"".data) attributes
  else
    " class=\"internal-link\"".data ++ attributes

/-- Construction-time parameters of `HTMLMessageRenderer`. -/
structure RenderCfg where
  current_chat_id : Option Nat
  is_forum : Bool
deriving DecidableEq

/-- `int(match.group(1))` on a digit string. -/
def digitsToNat (s : Str) : Nat := s.foldl (fun acc c => acc * 10 + (c.toNat - 48)) 0

/-- Python truthiness of
`self.current_chat_id and chat_id != self.current_chat_id`
(`None` and `0` are falsy). -/
def isExternalChat (rc : RenderCfg) (chat_id : Nat) : Bool :=
  match rc.current_chat_id with
  | some v => if v = 0 then false else decide (chat_id ≠ v)
  | none => false

/-- `HTMLMessageRenderer._replace_forum_message_link`; `whole` is
`match.group(0)`. -/
def replace_forum_message_link (rc : RenderCfg) (g : LinkMatch) (whole : Str) : Str :=
  let chat_id := digitsToNat g.chat
  if isExternalChat rc chat_id then whole
  else
    let message_id := g.num3.getD []
    let attributes := addInternalClass g.attrs
    let attributes := attributes ++ " data-msg-id=\"".data ++ message_id ++
      "\" data-topic-id=\"".data ++ g.num2 ++ "\"".data
    "<a href=\"#msg-".data ++ message_id ++ "\"".data ++ attributes ++ ">".data ++
      g.text ++ "</a>".data

/-- `HTMLMessageRenderer._replace_forum_topic_link`. -/
def replace_forum_topic_link (rc : RenderCfg) (g : LinkMatch) (whole : Str) : Str :=
  let chat_id := digitsToNat g.chat
  if isExternalChat rc chat_id then whole
  else
    let attributes := addInternalClass g.attrs
    let attributes := attributes ++ " data-topic-id=\"".data ++ g.num2 ++ "\"".data
    "<a href=\"#topic-".data ++ g.num2 ++ "\"".data ++ attributes ++ ">".data ++
      g.text ++ "</a>".data

/-- `HTMLMessageRenderer._replace_regular_message_link`. -/
def replace_regular_message_link (rc : RenderCfg) (g : LinkMatch) (whole : Str) : Str :=
  let chat_id := digitsToNat g.chat
  if isExternalChat rc chat_id then whole
  else
    let attributes := addInternalClass g.attrs
    let attributes := attributes ++ " data-msg-id=\"".data ++ g.num2 ++ "\"".data
    "<a href=\"#msg-".data ++ g.num2 ++ "\"".data ++ attributes ++ ">".data ++
      g.text ++ "</a>".data

/-- `HTMLMessageRenderer._transform_telegram_links`: in a forum, the message
pattern is substituted first and the topic pattern runs on its output; in a
flat chat only the regular pattern runs. -/
def transform_telegram_links (rc : RenderCfg) (html_content : Str) : Str :=
  if rc.is_forum then
    let h1 := subst matchForumMsgLink (replace_forum_message_link rc) html_content
    subst (matchTwoNumLink true) (replace_forum_topic_link rc) h1
  else
    subst (matchTwoNumLink false) (replace_regular_message_link rc) html_content

/-- `HTMLMessageRenderer.render_message`: transformed text when `msg.text` is
truthy, else the empty string (the `content_parts` list has at most one
element, so the `"<br>".join` is the element itself or empty). -/
def render_message (rc : RenderCfg) (m : RawMsg) : Str :=
  if m.text.isEmpty then [] else transform_telegram_links rc m.text

/-! ## Media Pipeline (`src/services/media_processor.py`) -/

/-- The media-type enum (`src/models/enums.py`). -/
inductive MediaType where
  | photo
  | video
  | video_note
  | voice
  | audio
  | document
  | gif
deriving DecidableEq

/-- `MediaType.value`. -/
def MediaType.value : MediaType → Str
  | photo => "photo".data
  | video => "video".data
  | video_note => "video_note".data
  | voice => "voice".data
  | audio => "audio".data
  | document => "document".data
  | gif => "gif".data

/-- The media slice of the configuration (`MediaConfig`). -/
structure MediaConfig where
  max_file_size_mb : Nat
  skip_media_types : List Str
  max_concurrent_downloads : Nat
deriving DecidableEq

/-- `MediaProcessor._get_media_type`: photo by payload class, then the
telethon kind flags in source dictionary order, then plain document. -/
def get_media_type (m : RawMsg) : Option MediaType :=
  match m.media with
  | none => none
  | some MediaPayload.photo => some MediaType.photo
  | some med =>
    if m.video_note then some MediaType.video_note
    else if m.video then some MediaType.video
    else if m.voice then some MediaType.voice
    else if m.audio then some MediaType.audio
    else if m.gif then some MediaType.gif
    else
      match med with
      | MediaPayload.document _ => some MediaType.document
      | _ => none

/-- `MediaProcessor._get_file_size`. -/
def get_file_size (m : RawMsg) : Nat :=
  match m.media with
  | some (MediaPayload.document (some d)) => d.size
  | _ => 0

/-- `MediaProcessor._exceeds_size_limit`. -/
def exceeds_size_limit (cfg : MediaConfig) (m : RawMsg) : Bool :=
  decide (get_file_size m > cfg.max_file_size_mb * 1024 * 1024)

/-- `MediaProcessor.should_skip_media`. -/
def should_skip_media (cfg : MediaConfig) (m : RawMsg) : Bool :=
  match m.media with
  | none => true
  | some _ =>
    match get_media_type m with
    | some mt =>
      if cfg.skip_media_types.contains mt.value then true
      else exceeds_size_limit cfg m
    | none => exceeds_size_limit cfg m

/-- The final path component (after the last `/`), as used by
`os.path.basename` and `pathlib.Path(...).name` on POSIX. -/
def pathFinalComponent (p : Str) : Str :=
  p.foldl (fun acc c => if c = '/' then [] else acc ++ [c]) []

/-- Index of the last `.` of a string, if any. -/
def lastDotIdx : Str → Option Nat
  | [] => none
  | c :: t =>
    match lastDotIdx t with
    | some i => some (i + 1)
    | none => if c = '.' then some 0 else none

/-- `pathlib.Path(p).suffix`: the extension (with dot) of the final
component; empty when the only dot is leading or trailing. -/
def pathSuffix (p : Str) : Str :=
  let nm := pathFinalComponent p
  match lastDotIdx nm with
  | some i => if 0 < i ∧ i < nm.length - 1 then nm.drop i else []
  | none => []

/-- `pathlib.Path(p).stem`. -/
def pathStem (p : Str) : Str :=
  let nm := pathFinalComponent p
  match lastDotIdx nm with
  | some i => if 0 < i ∧ i < nm.length - 1 then nm.take i else nm
  | none => nm

/-- `str.strip(chars)`. -/
def pyStrip (s : Str) (cs : Str) : Str :=
  ((s.dropWhile (fun c => cs.contains c)).reverse.dropWhile
    (fun c => cs.contains c)).reverse

/-- `os.path.splitext`: split at the last dot of the name unless every
character before it is a dot. -/
def splitExt (nm : Str) : Str × Str :=
  match lastDotIdx nm with
  | none => (nm, [])
  | some i =>
    if (nm.take i).all (fun c => c = '.') then (nm, [])
    else (nm.take i, nm.drop i)

/-- `FileSystemService.sanitize_filename` (`src/utils/filesystem.py`):
basename, replace the dangerous characters by `_`, strip dots and spaces,
cap the length at `Constants.MAX_FILENAME_LENGTH = 255`, and return `None`
when nothing is left. -/
def sanitize_filename (filename : Str) : Option Str :=
  let f1 := pathFinalComponent filename
  let bad : Str := ['<', '>', ':', '"', '/', '\\', '|', '?', '*']
  let f2 := f1.map (fun c => if bad.contains c then '_' else c)
  let f3 := pyStrip f2 ['.', ' ']
  let f4 :=
    if f3.length > 255 then (splitExt f3).1.take 250 ++ (splitExt f3).2
    else f3
  if f4.isEmpty then none else some f4

/-- The filename-attribute loop of `_get_file_extension`: the first document
attribute with a truthy `file_name` whose path suffix is truthy yields that
suffix, lowercased; others are passed over. -/
def findFirstExt : List DocAttr → Option Str
  | [] => none
  | a :: rest =>
    if !a.file_name.isEmpty && !(pathSuffix a.file_name).isEmpty then
      some (pyLower (pathSuffix a.file_name))
    else findFirstExt rest

/-- `MediaProcessor._get_file_extension`. -/
def get_file_extension (m : RawMsg) : Str :=
  let fromName : Option Str :=
    match m.media with
    | some (MediaPayload.document (some d)) => findFirstExt d.attributes
    | _ => none
  match fromName with
  | some ext => ext
  | none =>
    match get_media_type m with
    | some MediaType.photo => ".jpg".data
    | some MediaType.video => ".mp4".data
    | some MediaType.video_note => ".mp4".data
    | some MediaType.voice => ".ogg".data
    | some MediaType.audio => ".mp3".data
    | some MediaType.gif => ".gif".data
    | some MediaType.document =>
      match m.media with
      | some (MediaPayload.document (some d)) =>
        if strIn "pdf".data d.mime_type then ".pdf".data
        else if strIn "image".data d.mime_type then
          (if strIn "webp".data d.mime_type then ".webp".data
           else if strIn "png".data d.mime_type then ".png".data
           else if strIn "gif".data d.mime_type then ".gif".data
           else ".jpg".data)
        else if strIn "video".data d.mime_type then ".mp4".data
        else if strIn "audio".data d.mime_type then ".mp3".data
        else if strIn "text".data d.mime_type then ".txt".data
        else if strIn "zip".data d.mime_type || strIn "archive".data d.mime_type then
          ".zip".data
        else ".bin".data
      | _ => ".bin".data
    | none => ".bin".data

/-- The filename-attribute loop of `_get_media_base_name`: first attribute
with a truthy `file_name` whose sanitized stem is truthy. -/
def findFirstSafeName : List DocAttr → Option Str
  | [] => none
  | a :: rest =>
    if !a.file_name.isEmpty then
      match sanitize_filename (pathStem a.file_name) with
      | some s => some s
      | none => findFirstSafeName rest
    else findFirstSafeName rest

/-- `MediaProcessor._get_media_base_name`. -/
def get_media_base_name (m : RawMsg) : Str :=
  let media_type_str :=
    match get_media_type m with
    | some mt => mt.value
    | none => "unknown".data
  let safe : Option Str :=
    match m.media with
    | some (MediaPayload.document (some d)) => findFirstSafeName d.attributes
    | _ => none
  match safe with
  | some s => media_type_str ++ "_".data ++ s
  | none => media_type_str

/-- Mutable per-run state of a `MediaProcessor` instance: the
downloaded-files dedup set (modelled as an append-ordered list) and the
global media counter. -/
structure MediaState where
  downloaded_files : List Str
  counter : Nat
deriving DecidableEq

/-- `MediaProcessor._get_next_global_index`. -/
def get_next_global_index (st : MediaState) : Nat × MediaState :=
  let c := st.counter + 1
  (c, { st with counter := c })

/-- `MediaProcessor._generate_unique_filename`:
`msg_{msg.id}_{global_index}_{base_name}{extension}`. -/
def generate_unique_filename (m : RawMsg) (st : MediaState) : Str × MediaState :=
  let gi := get_next_global_index st
  ("msg_".data ++ natDigits m.id ++ "_".data ++ natDigits gi.1 ++ "_".data ++
    get_media_base_name m ++ get_file_extension m, gi.2)

/-- Outcome of the external download operation (telethon
`msg.download_media` composed with `os.path.relpath`): a relative path, a
`None` result, or a raised exception. -/
inductive DLResult where
  | ok (rel_path : Option Str)
  | err (e : Str)
deriving DecidableEq

/-- Download oracle: filename chosen by the pipeline and message to
download. -/
abbrev DLOracle := Str → RawMsg → DLResult

/-- `MediaDownloadError` (`src/exceptions`). -/
inductive MediaDownloadError where
  | mk (msg : Str)
deriving DecidableEq

/-- `html.escape` with default quoting. -/
def htmlEscape (s : Str) : Str :=
  s.flatMap fun c =>
    if c = '&' then "&amp;".data
    else if c = '<' then "&lt;".data
    else if c = '>' then "&gt;".data
    else if c = '"' then "&quot;".data
    else if c = Char.ofNat 39 then "&#x27;".data
    else [c]

/-- `MediaProcessor._generate_media_html`. -/
def generate_media_html (m : RawMsg) (rel_path : Str) : Str :=
  match m.media with
  | some MediaPayload.photo =>
    "<img src=\"".data ++ rel_path ++ "\" loading=\"lazy\" alt=\"Image\">".data
  | some (MediaPayload.document _) =>
    if m.gif then
      "<img src=\"".data ++ rel_path ++ "\" loading=\"lazy\" alt=\"GIF\">".data
    else if m.voice || m.audio then
      "<audio controls src=\"".data ++ rel_path ++
        "\">Your browser does not support audio.</audio>".data
    else
      let filename := pathFinalComponent rel_path
      "<a href=\"".data ++ rel_path ++ "\" download>📄 ".data ++
        htmlEscape filename ++ "</a>".data
  | _ => "<a href=\"".data ++ rel_path ++ "\">📎 Media file</a>".data

/-- `MediaProcessor._download_media`: derive the unique filename (always
advancing the global counter), skip silently if it is already in the dedup
set, otherwise download; a download exception is wrapped in
`MediaDownloadError`, a successful download records the filename and yields
the media HTML. -/
def download_media (dl : DLOracle) (m : RawMsg) (st : MediaState) :
    Except MediaDownloadError (Option Str) × MediaState :=
  let gen := generate_unique_filename m st
  let media_filename := gen.1
  let st1 := gen.2
  if st1.downloaded_files.contains media_filename then
    (Except.ok none, st1)
  else
    match dl media_filename m with
    | DLResult.err e => (Except.error (MediaDownloadError.mk e), st1)
    | DLResult.ok none => (Except.ok none, st1)
    | DLResult.ok (some rel_path) =>
      (Except.ok (some (generate_media_html m rel_path)),
        { st1 with downloaded_files := st1.downloaded_files ++ [media_filename] })

/-- `MediaProcessor.process_media`: skip non-media and skip-filtered
messages, then download under the semaphore; every exception is caught and
degrades to `None`.  (The `@retry_on_error()` wrapper only re-runs the body
when it raises; the internal catch-all prevents that, so the wrapper is the
identity at this level.) -/
def process_media (cfg : MediaConfig) (dl : DLOracle) (m : RawMsg) (st : MediaState) :
    Option Str × MediaState :=
  if m.media.isNone || should_skip_media cfg m then (none, st)
  else
    match download_media dl m st with
    | (Except.ok r, st') => (r, st')
    | (Except.error _, st') => (none, st')

/-! ## Reference Extractor and DisplayRecords
(`src/services/message_processor.py`, `src/models/data.py`) -/

/-- `ReactionData`. -/
structure ReactionData where
  emoticon : Str
  count : Nat
deriving DecidableEq

/-- `MessageData` — the DisplayRecord of the spec. -/
structure MessageData where
  id : Nat
  date : Str
  sender : Str
  html_content : Str
  topic_id : Nat
  is_service : Bool
  service_description : Str
  is_reply : Bool
  reply_to_msg_id : Option Nat
  skip_reason : Str
  reactions : List ReactionData
  grouped_message_ids : List Nat
deriving DecidableEq

/-- `TopicData`. -/
structure TopicData where
  id : Nat
  title : Str
  messages : List MessageData
deriving DecidableEq

/-- The topics dictionary, keyed by topic id (insertion-ordered, as a Python
dict). -/
abbrev Topics := List (Nat × TopicData)

/-- External collaborators used while building a record: timezone-localized
date formatting (`zoneinfo` + `strftime`), telethon's display-name helper,
and the `f"{bytes/1048576:.1f}"` float rendering (floating point is
abstracted; every claim is parametric in these). -/
structure PipelineEnv where
  format_date : Nat → Str
  display_name : SenderInfo → Str
  format_mb : Nat → Str

/-- `MessageProcessor._format_sender_name`. -/
def format_sender_name (env : PipelineEnv) (sender : Option SenderInfo) : Str :=
  match sender with
  | none => "Неизвестно".data
  | some s =>
    if !s.username.isEmpty then
      env.display_name s ++ " (ID: ".data ++ natDigits s.id ++ ", @".data ++
        s.username ++ ")".data
    else
      env.display_name s ++ " (ID: ".data ++ natDigits s.id ++ ")".data

/-- The action-type description table of `_analyze_service_message`. -/
def service_descriptions (action_type : Str) : Option Str :=
  if action_type = "MessageActionChatAddUser".data then
    some "Пользователь добавлен в чат".data
  else if action_type = "MessageActionChatDeleteUser".data then
    some "Пользователь покинул чат".data
  else if action_type = "MessageActionChatJoinedByLink".data then
    some "Пользователь присоединился по ссылке".data
  else if action_type = "MessageActionChatEditTitle".data then
    some "Изменено название чата".data
  else if action_type = "MessageActionChatEditPhoto".data then
    some "Изменена фотография чата".data
  else if action_type = "MessageActionChatDeletePhoto".data then
    some "Удалена фотография чата".data
  else if action_type = "MessageActionChatCreate".data then
    some "Чат создан".data
  else if action_type = "MessageActionChannelCreate".data then
    some "Канал создан".data
  else if action_type = "MessageActionChatMigrateTo".data then
    some "Чат преобразован в супергруппу".data
  else if action_type = "MessageActionChannelMigrateFrom".data then
    some "Супергруппа создана из чата".data
  else if action_type = "MessageActionPinMessage".data then
    some "Сообщение закреплено".data
  else if action_type = "MessageActionHistoryClear".data then
    some "История очищена".data
  else if action_type = "MessageActionGameScore".data then
    some "Результат игры".data
  else if action_type = "MessageActionPaymentSent".data then
    some "Платеж отправлен".data
  else if action_type = "MessageActionPhoneCall".data then
    some "Звонок".data
  else if action_type = "MessageActionScreenshotTaken".data then
    some "Сделан скриншот".data
  else if action_type = "MessageActionCustomAction".data then
    some "Пользовательское действие".data
  else if action_type = "MessageActionBotAllowed".data then
    some "Бот разрешен".data
  else if action_type = "MessageActionSecureValuesSent".data then
    some "Отправлены защищенные данные".data
  else if action_type = "MessageActionContactSignUp".data then
    some "Пользователь зарегистрировался".data
  else if action_type = "MessageActionGeoProximityReached".data then
    some "Достигнута близость местоположения".data
  else if action_type = "MessageActionGroupCall".data then
    some "Групповой звонок".data
  else if action_type = "MessageActionInviteToGroupCall".data then
    some "Приглашение в групповой звонок".data
  else if action_type = "MessageActionSetMessagesTTL".data then
    some "Установлен таймер самоуничтожения".data
  else if action_type = "MessageActionGroupCallScheduled".data then
    some "Запланирован групповой звонок".data
  else if action_type = "MessageActionSetChatTheme".data then
    some "Изменена тема чата".data
  else if action_type = "MessageActionChatJoinedByRequest".data then
    some "Пользователь принят в чат по заявке".data
  else if action_type = "MessageActionWebViewDataSent".data then
    some "Данные отправлены через веб-приложение".data
  else if action_type = "MessageActionGiftPremium".data then
    some "Подарена премиум-подписка".data
  else if action_type = "MessageActionTopicCreate".data then
    some "Создан топик форума".data
  else if action_type = "MessageActionTopicEdit".data then
    some "Изменен топик форума".data
  else none

/-- `MessageProcessor._analyze_service_message`. -/
def analyze_service_message (m : RawMsg) : Bool × Str :=
  match m.action with
  | none => (false, [])
  | some a =>
    let action_type := a.type_name
    let description :=
      match service_descriptions action_type with
      | some d => d
      | none => "Служебное сообщение: ".data ++ action_type
    let description :=
      if action_type = "MessageActionChatEditTitle".data then
        match a.title with
        | some t => description ++ ": \"".data ++ t ++ "\"".data
        | none => description
      else if action_type = "MessageActionCustomAction".data then
        match a.message with
        | some msg => description ++ ": \"".data ++ msg ++ "\"".data
        | none => description
      else description
    (true, description)

/-- `MessageProcessor._get_skip_reason`. -/
def get_skip_reason (env : PipelineEnv) (cfg : MediaConfig) (m : RawMsg) : Str :=
  match m.media with
  | none => []
  | some _ =>
    let sizeReason : Str :=
      if exceeds_size_limit cfg m then
        "размер файла ".data ++ env.format_mb (get_file_size m) ++ "MB > ".data ++
          natDigits cfg.max_file_size_mb ++ "MB".data
      else []
    match get_media_type m with
    | some mt =>
      if cfg.skip_media_types.contains mt.value then "содержит ".data ++ mt.value
      else sizeReason
    | none => sizeReason

/-- `MessageProcessor._get_reply_info` (`reply_to_msg_id` must be truthy; in
a forum the `reply_to_top_id` must also be present). -/
def get_reply_info (m : RawMsg) : Bool × Option Nat :=
  match m.reply_to with
  | none => (false, none)
  | some rh =>
    match rh.reply_to_msg_id with
    | some rid =>
      if rid = 0 then (false, none)
      else if rh.forum_topic then
        match rh.reply_to_top_id with
        | some _ => (true, some rid)
        | none => (false, none)
      else (true, some rid)
    | none => (false, none)

/-- `MessageProcessor._extract_reactions`: keep, in order, the results that
have a reaction object with a truthy emoticon and a positive count. -/
def extract_reactions (m : RawMsg) : List ReactionData :=
  match m.reactions with
  | none => []
  | some results =>
    results.filterMap fun r =>
      match r.reaction with
      | none => none
      | some rx =>
        if !rx.emoticon.isEmpty && r.count > 0 then
          some { emoticon := rx.emoticon, count := r.count }
        else none

/-! ## Pipeline Coordinator (`MessageProcessor` two-phase processing) -/

/-- Dictionary lookup on the topics map. -/
def topicsLookup (ts : Topics) (tid : Nat) : Option TopicData :=
  match ts with
  | [] => none
  | (k, t) :: rest => if k = tid then some t else topicsLookup rest tid

/-- `if topic_id not in topics: topics[topic_id] = TopicData(id=topic_id,
title=f"Топик {topic_id}")`. -/
def ensureTopic (ts : Topics) (tid : Nat) : Topics :=
  match topicsLookup ts tid with
  | some _ => ts
  | none =>
    ts ++ [(tid, { id := tid, title := "Топик ".data ++ natDigits tid, messages := [] })]

/-- `topics[topic_id].messages.append(message_data)` (dict keys are unique,
so updating the first occurrence is the dictionary update). -/
def appendRecord (ts : Topics) (tid : Nat) (r : MessageData) : Topics :=
  match ts with
  | [] => []
  | (k, t) :: rest =>
    if k = tid then (k, { t with messages := t.messages ++ [r] }) :: rest
    else (k, t) :: appendRecord rest tid r

/-- `"<br>".join`. -/
def strJoinBr : List Str → Str
  | [] => []
  | [s] => s
  | s :: rest => s ++ "<br>".data ++ strJoinBr rest

/-- The text concatenation of `_process_message_group_text_only`: rendered
member texts, truthy ones only, joined with `<br>`. -/
def combinedContent (rc : RenderCfg) (group : List RawMsg) : Str :=
  strJoinBr (group.filterMap fun m =>
    let t := render_message rc m
    if t.isEmpty then none else some t)

/-- The DisplayRecord built for an album by
`_process_message_group_text_only`: all metadata comes from `first` (the
group's first message), the body is the members' concatenated text, and the
member-id set lists every member id. -/
def groupRecord (env : PipelineEnv) (mcfg : MediaConfig) (rc : RenderCfg)
    (first : RawMsg) (group : List RawMsg) (tid : Nat) : MessageData :=
  let svc := analyze_service_message first
  let rep := get_reply_info first
  { id := first.id
    date := env.format_date first.date
    sender := format_sender_name env first.sender
    html_content := combinedContent rc group
    topic_id := tid
    is_service := svc.1
    service_description := svc.2
    is_reply := rep.1
    reply_to_msg_id := rep.2
    skip_reason := get_skip_reason env mcfg first
    reactions := extract_reactions first
    grouped_message_ids := group.map (fun m => m.id) }

/-- `MessageProcessor._process_message_group_text_only`. -/
def process_message_group_text_only (env : PipelineEnv) (mcfg : MediaConfig)
    (rc : RenderCfg) (group : List RawMsg) (ts : Topics) (tid : Nat) : Topics :=
  match group with
  | [] => ts
  | first :: _ =>
    appendRecord (ensureTopic ts tid) tid (groupRecord env mcfg rc first group tid)

/-- The DisplayRecord built for a single message by
`_process_single_message_text_only` (note: `grouped_message_ids` is left at
its dataclass default, the empty list). -/
def singleRecord (env : PipelineEnv) (mcfg : MediaConfig) (rc : RenderCfg)
    (m : RawMsg) (tid : Nat) : MessageData :=
  let svc := analyze_service_message m
  let rep := get_reply_info m
  { id := m.id
    date := env.format_date m.date
    sender := format_sender_name env m.sender
    html_content := render_message rc m
    topic_id := tid
    is_service := svc.1
    service_description := svc.2
    is_reply := rep.1
    reply_to_msg_id := rep.2
    skip_reason := get_skip_reason env mcfg m
    reactions := extract_reactions m
    grouped_message_ids := [] }

/-- `MessageProcessor._process_single_message_text_only`. -/
def process_single_message_text_only (env : PipelineEnv) (mcfg : MediaConfig)
    (rc : RenderCfg) (m : RawMsg) (ts : Topics) (tid : Nat) : Topics :=
  appendRecord (ensureTopic ts tid) tid (singleRecord env mcfg rc m tid)

/-- One entry of the merged album/single item list of
`_create_sorted_items`. -/
inductive SortItem where
  | group (date : Nat) (msgs : List RawMsg)
  | single (date : Nat) (m : RawMsg)
deriving DecidableEq

/-- The sort key (`x[1]`, the timestamp). -/
def SortItem.date : SortItem → Nat
  | group d _ => d
  | single d _ => d

/-- `MessageProcessor._create_sorted_items`: albums (keyed by their first
member's timestamp) then singles, stably sorted by timestamp ascending.
(Albums are never empty by construction of `_group_messages`; `getD 0`
covers the vacuous case.) -/
def create_sorted_items (grouped : List (Nat × List RawMsg))
    (singles : List RawMsg) : List SortItem :=
  let items :=
    grouped.map (fun g => SortItem.group ((g.2.head?.map (fun m => m.date)).getD 0) g.2)
      ++ singles.map (fun m => SortItem.single m.date m)
  pySortBy (fun a b => decide (a.date ≤ b.date)) items

/-- Dispatch of the stage-1 loop body. -/
def processItemText (env : PipelineEnv) (mcfg : MediaConfig) (rc : RenderCfg)
    (ts : Topics) (tid : Nat) : SortItem → Topics
  | SortItem.group _ msgs => process_message_group_text_only env mcfg rc msgs ts tid
  | SortItem.single _ m => process_single_message_text_only env mcfg rc m ts tid

/-- Stage 1 (`Этап 1`): the text pass over the sorted items. -/
def textPass (env : PipelineEnv) (mcfg : MediaConfig) (rc : RenderCfg)
    (items : List SortItem) (ts : Topics) (tid : Nat) : Topics :=
  items.foldl (fun acc it => processItemText env mcfg rc acc tid it) ts

/-- The record a sorted item gives rise to (for stating theorems about the
text pass; groups are non-empty in every reachable state). -/
def itemRecord (env : PipelineEnv) (mcfg : MediaConfig) (rc : RenderCfg)
    (tid : Nat) : SortItem → Option MessageData
  | SortItem.group _ [] => none
  | SortItem.group _ (first :: rest) =>
    some (groupRecord env mcfg rc first (first :: rest) tid)
  | SortItem.single _ m => some (singleRecord env mcfg rc m tid)

/-- `MessageProcessor._append_media_to_content`. -/
def append_media_to_content (r : MessageData) (media_html : Str) : MessageData :=
  if r.html_content.isEmpty then { r with html_content := media_html }
  else { r with html_content := r.html_content ++ "<br>".data ++ media_html }

/-- The record-search loop of `_add_media_to_message`: the first record whose
own id matches or whose member-id set contains the id receives the media;
later records are untouched. -/
def addMediaToList (msg_id : Nat) (media_html : Str) :
    List MessageData → List MessageData
  | [] => []
  | r :: rest =>
    if r.id = msg_id || r.grouped_message_ids.contains msg_id then
      append_media_to_content r media_html :: rest
    else r :: addMediaToList msg_id media_html rest

/-- The dictionary update of `_add_media_to_message` (first occurrence of the
unique key). -/
def addMediaTopics (tid : Nat) (msg_id : Nat) (media_html : Str) : Topics → Topics
  | [] => []
  | (k, t) :: rest =>
    if k = tid then
      (k, { t with messages := addMediaToList msg_id media_html t.messages }) :: rest
    else (k, t) :: addMediaTopics tid msg_id media_html rest

/-- `MessageProcessor._add_media_to_message`. -/
def add_media_to_message (ts : Topics) (tid : Nat) (msg_id : Nat)
    (media_html : Str) : Topics :=
  match topicsLookup ts tid with
  | none => ts
  | some _ => addMediaTopics tid msg_id media_html ts

/-- The `media_messages` selection of `_process_all_media_parallel`. -/
def mediaMessages (mcfg : MediaConfig) (msgs : List RawMsg) : List RawMsg :=
  msgs.filter (fun m => m.media.isSome && !should_skip_media mcfg m)

/-- The batched download-and-merge loop of `_process_all_media_parallel`,
modelled sequentially in batch order: within the event loop the filename
generation happens at task start (creation order) and every topics/dedup-set
mutation happens after the batch join on the single coordinating task, so
the sequential model is observationally equivalent.  The third component
logs the ids for which `process_media` was invoked. -/
def mediaLoop (mcfg : MediaConfig) (dl : DLOracle) (tid : Nat) :
    List RawMsg → Topics → MediaState → Topics × MediaState × List Nat
  | [], ts, st => (ts, st, [])
  | m :: rest, ts, st =>
    let pm := process_media mcfg dl m st
    let ts' :=
      match pm.1 with
      | some html => add_media_to_message ts tid m.id html
      | none => ts
    let r := mediaLoop mcfg dl tid rest ts' pm.2
    (r.1, r.2.1, m.id :: r.2.2)

/-- Stage 2 (`Этап 2`): the media pass. -/
def process_all_media_parallel (mcfg : MediaConfig) (dl : DLOracle)
    (msgs : List RawMsg) (ts : Topics) (tid : Nat) (st : MediaState) :
    Topics × MediaState × List Nat :=
  mediaLoop mcfg dl tid (mediaMessages mcfg msgs) ts st

/-- The grouping insertion of `_group_messages` (Python dict semantics:
first-occurrence key order, arrival order within a group). -/
def groupInsert : List (Nat × List RawMsg) → Nat → RawMsg → List (Nat × List RawMsg)
  | [], g, m => [(g, [m])]
  | (k, ms) :: rest, g, m =>
    if k = g then (k, ms ++ [m]) :: rest
    else (k, ms) :: groupInsert rest g m

/-- `MessageProcessor._group_messages`: partition into the album dictionary
and the singles, then stably sort each album by message id ascending. -/
def group_messages (msgs : List RawMsg) : List (Nat × List RawMsg) × List RawMsg :=
  let acc := msgs.foldl
    (fun acc m =>
      match groupKey m with
      | some g => (groupInsert acc.1 g m, acc.2)
      | none => (acc.1, acc.2 ++ [m]))
    ([], [])
  (acc.1.map (fun g => (g.1, pySortBy (fun a b => decide (a.id ≤ b.id)) g.2)), acc.2)

/-- `MessageProcessor.process_messages_streaming` after collection: group,
filter with group propagation, short-circuit when nothing is left (only
making sure the topic exists), otherwise run the text pass over the
time-sorted items and then the media pass over the filtered raw messages. -/
def process_messages_streaming (env : PipelineEnv) (fcfg : FilterConfig)
    (mcfg : MediaConfig) (rc : RenderCfg) (dl : DLOracle) (msgs : List RawMsg)
    (ts : Topics) (tid : Nat) (st : MediaState) : Topics × MediaState × List Nat :=
  let gm := group_messages msgs
  let filt := filter_grouped_messages fcfg gm.1 gm.2
  let filtered_count := (filt.1.map (fun g => g.2.length)).sum + filt.2.1.length
  if filtered_count = 0 then
    (ensureTopic ts tid, st, [])
  else
    let filtered_messages := filt.1.flatMap (fun g => g.2) ++ filt.2.1
    let items := create_sorted_items filt.1 filt.2.1
    let ts1 := textPass env mcfg rc items ts tid
    process_all_media_parallel mcfg dl filtered_messages ts1 tid st

/-! ## Render boundary and orchestrator result
(`src/renderers/html_renderer.py`, `src/orchestrator.py`) -/

/-- `HTMLRenderer.render`'s topic preparation: topics in ascending id order,
empty topics dropped, and each surviving topic's records stably re-sorted
descending by record id (newest first). -/
def render_topics (ts : Topics) : List TopicData :=
  let sorted_keys := pySortBy (fun a b => decide (a ≤ b)) (ts.map (fun kt => kt.1))
  sorted_keys.filterMap fun k =>
    match topicsLookup ts k with
    | some t =>
      if t.messages.isEmpty then none
      else some { t with messages := pySortBy (fun a b => decide (b.id ≤ a.id)) t.messages }
    | none => none

/-- The rendered document handed to the template. -/
inductive RenderedDoc where
  | full (topics : List TopicData)
  | emptyDoc (message : Str)
deriving DecidableEq

/-- `ExportResult` (`src/models/data.py`), output path omitted. -/
structure ExportResult where
  success : Bool
  total_messages : Nat
  total_topics : Nat
  media_count : Nat
  error : Option Str
deriving DecidableEq

/-- The tail of `ExportOrchestrator.export_chat` after processing: count the
records, render the empty explanatory document when nothing is left (Python:
`if not topics or total_messages == 0`), otherwise render the topics, and
return a successful `ExportResult`. -/
def export_finish (ts : Topics) (media_count : Nat) : RenderedDoc × ExportResult :=
  let total := (ts.map (fun kt => kt.2.messages.length)).sum
  let doc :=
    if ts.isEmpty || total = 0 then
      RenderedDoc.emptyDoc
        "Все сообщения были отфильтрованы. Проверьте настройки фильтров.".data
    else RenderedDoc.full (render_topics ts)
  (doc, { success := true, total_messages := total, total_topics := ts.length,
          media_count := media_count, error := none })

/-- No position of `s` starts a match of `μ` (so `re.sub` is the identity). -/
def NoMatch {G : Type} (μ : Str → Option (G × Str)) (s : Str) : Prop :=
  ∀ n, μ (s.drop n) = none

/-- The first character, if any, is not a digit (boundary condition for the
maximal-munch `\d+`). -/
def headNotDigit : Str → Prop
  | [] => True
  | c :: _ => isReDigit c = false

/-- A canonical anchor of the forum message-link shape
`<a href="https://t.me/c/{C}/{T}/{M}"{attrs}>{text}</a>` (right-nested for
proof convenience). -/
def forumMsgAnchor (C T M attrs text : Str) : Str :=
  "<a href=\"https://t.me/c/".data ++
    (C ++ ('/' :: (T ++ ('/' :: (M ++ ('"' :: (attrs ++ ('>' :: (text ++ "</a>".data)))))))))

/-- Right-nested concatenation of string chunks, terminated by the anchor
close tag (a proof device: its unfolding is definitionally the right-nested
append normal form of a rewritten anchor's interior). -/
def catChunks : List Str → Str
  | [] => "</a>".data
  | s :: rest => s ++ catChunks rest

/-! ### Concrete fixtures (for witnesses and counterexamples) -/

/-- A forum message anchor whose link text itself contains another forum
message anchor (legal for the `DOTALL` lazy `(.*?)`). -/
def nestedAnchor : Str :=
  "<a href=\"https://t.me/c/1/2/3\"><a href=\"https://t.me/c/1/2/4\">x</a></a>".data

/-- A forum message anchor whose attributes carry an unquoted class value. -/
def unquotedClassAnchor : Str :=
  "<a href=\"https://t.me/c/1/2/3\" class=x>t</a>".data

/-- A default raw message: no media, no action, no text. -/
def baseMsg : RawMsg :=
  { id := 1, date := 0, grouped_id := none, message := [], text := [],
    action := none, reply_to := none, reactions := none, media := none,
    sender := none, video_note := false, video := false, voice := false,
    audio := false, gif := false }

/-- A photo message. -/
def photoMsg : RawMsg := { baseMsg with media := some MediaPayload.photo }

/-- A plain text message saying "hello". -/
def helloMsg : RawMsg := { baseMsg with message := "hello".data, text := "hello".data }

/-- A concrete environment (the external collaborators return fixed strings). -/
def testEnv : PipelineEnv :=
  { format_date := fun _ => "2024-01-01 00:00:00".data,
    display_name := fun _ => "user".data,
    format_mb := fun _ => "0.0".data }

/-- A concrete media configuration with no skips. -/
def testMcfg : MediaConfig :=
  { max_file_size_mb := 50, skip_media_types := [], max_concurrent_downloads := 5 }

/-- A concrete include-only filter configuration. -/
def testFcfgInclude : FilterConfig :=
  { include_substrings := ["bug".data], exclude_substrings := [], case_sensitive := true }

/-- Renderer parameters for a forum chat with id 1. -/
def rcForum : RenderCfg := { current_chat_id := some 1, is_forum := true }

/-- A download oracle that always succeeds. -/
def okDL : DLOracle := fun fname _ => DLResult.ok (some ("media/".data ++ fname))

/-- A download oracle that always raises. -/
def errDL : DLOracle := fun _ _ => DLResult.err "boom".data

/-- A fresh media-processor state. -/
def st0 : MediaState := { downloaded_files := [], counter := 0 }

/-- The default topic of a flat chat. -/
def generalTopic : TopicData := { id := 1, title := "General".data, messages := [] }

/-- A topics map holding only the default topic. -/
def topicsGeneral : Topics := [(1, generalTopic)]

/-! ## Theorems -/

/-- Helper: the group loop computes a `filter` plus the dropped size total. -/
theorem filterGroupedAux_eq (f : FilterConfig) (gs : List (Nat × List RawMsg)) :
    filterGroupedAux f gs =
      (gs.filter (fun g => g.2.any (fun m => should_include_raw_message f m)),
       ((gs.filter (fun g => !g.2.any (fun m => should_include_raw_message f m))).map
         (fun g => g.2.length)).sum) := by
  induction gs with
  | nil => rfl
  | cons g gs ih =>
    simp only [filterGroupedAux, ih]
    by_cases h : g.2.any (fun m => should_include_raw_message f m)
    · simp [List.filter_cons, h]
    · simp [List.filter_cons, h]

/-- Helper: the singles loop computes a `filter` plus the dropped count. -/
theorem filterSinglesAux_eq (f : FilterConfig) (ms : List RawMsg) :
    filterSinglesAux f ms =
      (ms.filter (fun m => should_include_raw_message f m),
       (ms.filter (fun m => !should_include_raw_message f m)).length) := by
  induction ms with
  | nil => rfl
  | cons m ms ih =>
    simp only [filterSinglesAux, ih]
    by_cases h : should_include_raw_message f m
    · simp [List.filter_cons, h]
    · simp [List.filter_cons, h, Nat.add_comm]

/-- C1: `should_include_raw_message` coincides with the six-rule reference
definition of spec §4.2 on every raw message and every filter configuration:
service messages are always admitted; with both sets empty everything is
admitted; textless messages are admitted iff the include set is empty; a
non-empty include set with no matching member rejects; a non-empty exclude
set with a matching member rejects (winning over include); otherwise the
message is admitted. -/
theorem should_include_eq_admits_spec (f : FilterConfig) (m : RawMsg) :
    should_include_raw_message f m = admits_spec f m := by
  unfold should_include_raw_message admits_spec contains_any_substring specMatchesMember
  by_cases ha : m.action.isSome
  · simp [ha]
  · by_cases hboth : f.include_substrings.isEmpty && f.exclude_substrings.isEmpty
    · simp [ha, hboth]
    · by_cases htext : m.message.isEmpty
      · simp [ha, hboth, htext]
      · simp only [ha, hboth, htext, if_false, Bool.false_eq_true, if_true]
        by_cases hinc : f.include_substrings.isEmpty
        · simp [hinc, htext]
        · by_cases hexc : f.exclude_substrings.isEmpty
          · simp [hinc, hexc, htext, List.all_eq_not_any_not]
          · simp [hinc, hexc, htext, List.all_eq_not_any_not]

/-- C2: group filtering keeps an album iff at least one member independently
passes the content filter; a kept album is kept whole, unchanged and in
order (the output is exactly the `filter` of the input); dropped albums and
dropped singles are all counted in the excluded count. -/
theorem filter_grouped_messages_spec (f : FilterConfig)
    (grouped : List (Nat × List RawMsg)) (singles : List RawMsg) :
    (filter_grouped_messages f grouped singles).1 =
        grouped.filter (fun g => g.2.any (fun m => should_include_raw_message f m)) ∧
    (∀ g, g ∈ (filter_grouped_messages f grouped singles).1 ↔
        (g ∈ grouped ∧ ∃ m ∈ g.2, should_include_raw_message f m = true)) ∧
    (filter_grouped_messages f grouped singles).2.1 =
        singles.filter (fun m => should_include_raw_message f m) ∧
    (filter_grouped_messages f grouped singles).2.2 =
        ((grouped.filter
            (fun g => !g.2.any (fun m => should_include_raw_message f m))).map
          (fun g => g.2.length)).sum +
        (singles.filter (fun m => !should_include_raw_message f m)).length := by
  unfold filter_grouped_messages
  rw [filterGroupedAux_eq, filterSinglesAux_eq]
  refine ⟨rfl, ?_, rfl, rfl⟩
  intro g
  simp [List.mem_filter, List.any_eq_true]

/-- Stable insertion is a permutation of consing. -/
theorem pyInsert_perm {α : Type} (le : α → α → Bool) (x : α) (l : List α) :
    (pyInsert le x l).Perm (x :: l) := by
  induction l with
  | nil => simp [pyInsert]
  | cons y ys ih =>
    simp only [pyInsert]
    by_cases h : le x y = true
    · simp [h]
    · simp only [h, if_false]
      exact (ih.cons y).trans (List.Perm.swap x y ys)

/-- Stable sort is a permutation of its input. -/
theorem pySortBy_perm {α : Type} (le : α → α → Bool) (l : List α) :
    (pySortBy le l).Perm l := by
  induction l with
  | nil => simp [pySortBy]
  | cons x xs ih => exact (pyInsert_perm le x _).trans (ih.cons x)

/-- Stable insertion preserves sortedness for a total transitive order. -/
theorem pyInsert_pairwise {α : Type} (le : α → α → Bool)
    (htot : ∀ a b, le a b || le b a)
    (htrans : ∀ a b c, le a b = true → le b c = true → le a c = true)
    (x : α) (l : List α) (hl : l.Pairwise (fun a b => le a b = true)) :
    (pyInsert le x l).Pairwise (fun a b => le a b = true) := by
  induction l with
  | nil => simp [pyInsert]
  | cons y ys ih =>
    rcases List.pairwise_cons.mp hl with ⟨hy, hys⟩
    simp only [pyInsert]
    by_cases h : le x y = true
    · rw [if_pos h]
      refine List.pairwise_cons.mpr ⟨?_, hl⟩
      intro b hb
      rcases List.mem_cons.mp hb with rfl | hb'
      · exact h
      · exact htrans x y b h (hy b hb')
    · rw [if_neg h]
      refine List.pairwise_cons.mpr ⟨?_, ih hys⟩
      intro b hb
      have hb' : b ∈ x :: ys := (pyInsert_perm le x ys).mem_iff.mp hb
      rcases List.mem_cons.mp hb' with hbx | hb''
      · have hxy := htot x y
        rw [Bool.or_eq_true] at hxy
        rw [hbx]
        exact hxy.resolve_left h
      · exact hy b hb''

/-- Stable sort sorts, for a total transitive order. -/
theorem pySortBy_pairwise {α : Type} (le : α → α → Bool)
    (htot : ∀ a b, le a b || le b a)
    (htrans : ∀ a b c, le a b = true → le b c = true → le a c = true)
    (l : List α) : (pySortBy le l).Pairwise (fun a b => le a b = true) := by
  induction l with
  | nil => simp [pySortBy]
  | cons x xs ih => exact pyInsert_pairwise le htot htrans x _ ih

/-- Lookup after appending a record to an existing topic. -/
theorem topicsLookup_appendRecord (ts : Topics) (tid : Nat) (r : MessageData)
    (t : TopicData) (h : topicsLookup ts tid = some t) :
    topicsLookup (appendRecord ts tid r) tid =
      some { t with messages := t.messages ++ [r] } := by
  induction ts with
  | nil => simp [topicsLookup] at h
  | cons kt rest ih =>
    obtain ⟨k, t'⟩ := kt
    by_cases hk : k = tid
    · subst hk
      have h' : t' = t := by simpa [topicsLookup] using h
      subst h'
      simp [appendRecord, topicsLookup]
    · simp only [topicsLookup, if_neg hk] at h
      simp only [appendRecord, if_neg hk, topicsLookup]
      exact ih h

/-- `ensureTopic` is the identity when the topic exists. -/
theorem ensureTopic_of_mem (ts : Topics) (tid : Nat) (t : TopicData)
    (h : topicsLookup ts tid = some t) : ensureTopic ts tid = ts := by
  simp [ensureTopic, h]

/-- C10: the DisplayRecord of an album derives its date, sender label,
service flag and description, reply linkage, skip reason and reaction list
exclusively from the album's first member: the group processor appends
exactly the record built by `groupRecord`, and two albums sharing the same
first member produce identical metadata regardless of the later members
(only the concatenated body and the member-id list may differ). -/
theorem album_metadata_from_first_member (env : PipelineEnv) (mcfg : MediaConfig)
    (rc : RenderCfg) (tid : Nat) (first : RawMsg) (rest1 rest2 : List RawMsg)
    (ts : Topics) :
    process_message_group_text_only env mcfg rc (first :: rest1) ts tid =
      appendRecord (ensureTopic ts tid) tid
        (groupRecord env mcfg rc first (first :: rest1) tid) ∧
    (groupRecord env mcfg rc first (first :: rest1) tid).id =
      (groupRecord env mcfg rc first (first :: rest2) tid).id ∧
    (groupRecord env mcfg rc first (first :: rest1) tid).date =
      (groupRecord env mcfg rc first (first :: rest2) tid).date ∧
    (groupRecord env mcfg rc first (first :: rest1) tid).sender =
      (groupRecord env mcfg rc first (first :: rest2) tid).sender ∧
    (groupRecord env mcfg rc first (first :: rest1) tid).is_service =
      (groupRecord env mcfg rc first (first :: rest2) tid).is_service ∧
    (groupRecord env mcfg rc first (first :: rest1) tid).service_description =
      (groupRecord env mcfg rc first (first :: rest2) tid).service_description ∧
    (groupRecord env mcfg rc first (first :: rest1) tid).is_reply =
      (groupRecord env mcfg rc first (first :: rest2) tid).is_reply ∧
    (groupRecord env mcfg rc first (first :: rest1) tid).reply_to_msg_id =
      (groupRecord env mcfg rc first (first :: rest2) tid).reply_to_msg_id ∧
    (groupRecord env mcfg rc first (first :: rest1) tid).skip_reason =
      (groupRecord env mcfg rc first (first :: rest2) tid).skip_reason ∧
    (groupRecord env mcfg rc first (first :: rest1) tid).reactions =
      (groupRecord env mcfg rc first (first :: rest2) tid).reactions := by
  refine ⟨rfl, ?_⟩
  simp [groupRecord]

/-- C9 counterexample: the record created for a single message has an empty
member-id set, not the singleton of its own id — `grouped_message_ids` is
left at the dataclass default `[]` in
`_process_single_message_text_only`. -/
theorem single_memberset_counterexample :
    (singleRecord testEnv testMcfg rcForum helloMsg 1).grouped_message_ids = [] ∧
    (singleRecord testEnv testMcfg rcForum helloMsg 1).grouped_message_ids ≠
      [helloMsg.id] := by
  exact ⟨rfl, by decide⟩

/-- C9 (amended): an album's record carries the first member's id (the lowest
id, since `_group_messages` sorts every album ascending by id) and exactly
all member ids in `grouped_message_ids`; a single message's record carries
its own id but an empty member-id set; the media pass locates the target
record as the first one whose identifier matches or whose member-id set
contains the raw id (singles are found through the identifier match). -/
theorem record_identity_and_media_routing (env : PipelineEnv) (mcfg : MediaConfig)
    (rc : RenderCfg) (tid msg_id : Nat) (html : Str) (msgs : List RawMsg)
    (first m : RawMsg) (rest : List RawMsg) (pre post : List MessageData)
    (r : MessageData)
    (hsorted : ∀ x ∈ rest, first.id ≤ x.id)
    (hpre : ∀ x ∈ pre, x.id ≠ msg_id ∧ x.grouped_message_ids.contains msg_id = false)
    (hr : r.id = msg_id ∨ r.grouped_message_ids.contains msg_id = true) :
    (groupRecord env mcfg rc first (first :: rest) tid).id = first.id ∧
    (∀ x ∈ first :: rest, first.id ≤ x.id) ∧
    (groupRecord env mcfg rc first (first :: rest) tid).grouped_message_ids =
      (first :: rest).map (fun x => x.id) ∧
    (singleRecord env mcfg rc m tid).id = m.id ∧
    (singleRecord env mcfg rc m tid).grouped_message_ids = [] ∧
    (∀ g ∈ (group_messages msgs).1, g.2.Pairwise (fun a b => a.id ≤ b.id)) ∧
    addMediaToList msg_id html (pre ++ r :: post) =
      pre ++ append_media_to_content r html :: post := by
  refine ⟨rfl, ?_, rfl, rfl, rfl, ?_, ?_⟩
  · intro x hx
    rcases List.mem_cons.mp hx with hx | hx
    · exact hx ▸ Nat.le_refl _
    · exact hsorted x hx
  · intro g hg
    simp only [group_messages, List.mem_map] at hg
    obtain ⟨g0, _, hg0⟩ := hg
    have hp := pySortBy_pairwise (fun a b => decide (a.id ≤ b.id))
      (fun a b => by
        rcases Nat.le_total a.id b.id with h | h <;> simp [h])
      (fun a b c hab hbc => by
        simp only [decide_eq_true_eq] at hab hbc ⊢
        exact Nat.le_trans hab hbc)
      g0.2
    have : g.2 = pySortBy (fun a b => decide (a.id ≤ b.id)) g0.2 := by
      rw [← hg0]
    rw [this]
    exact hp.imp (fun h => of_decide_eq_true h)
  · induction pre with
    | nil =>
      simp only [List.nil_append, addMediaToList]
      rw [if_pos (by
        rcases hr with h | h
        · simp [h]
        · rw [Bool.or_eq_true]
          exact Or.inr h)]
    | cons x pre ih =>
      have hx := hpre x (List.mem_cons_self x pre)
      simp only [List.cons_append, addMediaToList, hx.1, hx.2]
      rw [if_neg (by simp [hx.1, hx.2])]
      exact congrArg (x :: ·) (ih (fun y hy => hpre y (List.mem_cons_of_mem x hy)))

/-- C9 witness: concrete routing of a media result to a single message's
record through the identifier match. -/
theorem record_identity_and_media_routing_witness :
    addMediaToList 1 "h".data
        ([] ++ singleRecord testEnv testMcfg rcForum helloMsg 1 :: []) =
      [] ++ append_media_to_content
        (singleRecord testEnv testMcfg rcForum helloMsg 1) "h".data :: [] :=
  (record_identity_and_media_routing testEnv testMcfg rcForum 1 1 "h".data []
      baseMsg helloMsg [] [] [] (singleRecord testEnv testMcfg rcForum helloMsg 1)
      (by intro x hx; cases hx) (by intro x hx; cases hx)
      (Or.inl (by decide))).2.2.2.2.2.2

/-- C5 (code bug evidence): re-processing the same raw message does NOT
derive the same unique filename — `_generate_unique_filename` embeds the
freshly incremented global counter, so the second derivation differs, the
dedup-set lookup misses, and a second download is performed (the
downloaded-files set grows to two entries for one message). -/
theorem media_filename_dedup_failing_input :
    (generate_unique_filename photoMsg st0).1 ≠
      (generate_unique_filename photoMsg (process_media testMcfg okDL photoMsg st0).2).1 ∧
    (process_media testMcfg okDL photoMsg st0).1.isSome = true ∧
    (process_media testMcfg okDL photoMsg
        (process_media testMcfg okDL photoMsg st0).2).1.isSome = true ∧
    (process_media testMcfg okDL photoMsg
        (process_media testMcfg okDL photoMsg st0).2).2.downloaded_files.length = 2 := by
  decide

/-- C8: a media download failure is caught per item: `process_media` returns
no media instead of propagating, and the media-pass loop leaves the topics
untouched at that step (only the filename counter advanced) and continues
with the remaining messages. -/
theorem media_failure_isolated (mcfg : MediaConfig) (dl : DLOracle) (tid : Nat)
    (e : Str) (m : RawMsg) (rest : List RawMsg) (ts : Topics) (st : MediaState)
    (herr : ∀ fn, dl fn m = DLResult.err e)
    (hskip : should_skip_media mcfg m = false) :
    (process_media mcfg dl m st).1 = none ∧
    mediaLoop mcfg dl tid (m :: rest) ts st =
      (let r := mediaLoop mcfg dl tid rest ts
          { downloaded_files := st.downloaded_files, counter := st.counter + 1 };
       (r.1, r.2.1, m.id :: r.2.2)) := by
  have hmedia : m.media.isNone = false := by
    cases hm : m.media with
    | none => rw [should_skip_media, hm] at hskip; cases hskip
    | some _ => simp [hm]
  have hpm : process_media mcfg dl m st =
      (none, { downloaded_files := st.downloaded_files, counter := st.counter + 1 }) := by
    unfold process_media
    rw [hmedia, hskip]
    simp only [Bool.or_self, Bool.false_eq_true, if_false]
    unfold download_media generate_unique_filename get_next_global_index
    by_cases hc : MediaState.downloaded_files
        { st with counter := st.counter + 1 } |>.contains
        ("msg_".data ++ natDigits m.id ++ "_".data ++ natDigits (st.counter + 1) ++
          "_".data ++ get_media_base_name m ++ get_file_extension m)
    · simp only [hc, if_true]
    · simp only [hc, Bool.false_eq_true, if_false, herr]
  refine ⟨by rw [hpm], ?_⟩
  show (let pm := process_media mcfg dl m st
        let ts' := match pm.1 with
          | some html => add_media_to_message ts tid m.id html
          | none => ts
        let r := mediaLoop mcfg dl tid rest ts' pm.2
        (r.1, r.2.1, m.id :: r.2.2)) = _
  rw [hpm]

/-- C8 witness: a failing download on a concrete photo message yields no
media. -/
theorem media_failure_isolated_witness :
    (process_media testMcfg errDL photoMsg st0).1 = none :=
  (media_failure_isolated testMcfg errDL 1 "boom".data photoMsg [] [] st0
      (fun _ => rfl) (by decide)).1


/-- C7: when group-aware filtering leaves zero included messages the pipeline
short-circuits: streaming returns with only the (empty) topic ensured, no
record is ever created, no download is attempted (the attempt log is empty),
and the orchestrator tail renders the explanatory empty document and a
successful result with `total_messages = 0`. -/
theorem empty_filter_short_circuit (env : PipelineEnv) (fcfg : FilterConfig)
    (mcfg : MediaConfig) (rc : RenderCfg) (dl : DLOracle) (msgs : List RawMsg)
    (ts : Topics) (tid : Nat) (st : MediaState) (media_count : Nat)
    (hts : ∀ p ∈ ts, p.2.messages = [])
    (hzero : ((filter_grouped_messages fcfg (group_messages msgs).1
          (group_messages msgs).2).1.map (fun g => g.2.length)).sum +
        (filter_grouped_messages fcfg (group_messages msgs).1
          (group_messages msgs).2).2.1.length = 0) :
    process_messages_streaming env fcfg mcfg rc dl msgs ts tid st =
      (ensureTopic ts tid, st, []) ∧
    (∀ p ∈ (process_messages_streaming env fcfg mcfg rc dl msgs ts tid st).1,
        p.2.messages = []) ∧
    (export_finish (process_messages_streaming env fcfg mcfg rc dl msgs ts tid st).1
        media_count).2.success = true ∧
    (export_finish (process_messages_streaming env fcfg mcfg rc dl msgs ts tid st).1
        media_count).2.total_messages = 0 ∧
    (∃ emsg, (export_finish (process_messages_streaming env fcfg mcfg rc dl msgs ts tid st).1
        media_count).1 = RenderedDoc.emptyDoc emsg) := by
  have h1 : process_messages_streaming env fcfg mcfg rc dl msgs ts tid st =
      (ensureTopic ts tid, st, []) := by
    unfold process_messages_streaming
    rw [if_pos hzero]
  have hempty : ∀ p ∈ ensureTopic ts tid, p.2.messages = [] := by
    intro p hp
    unfold ensureTopic at hp
    rcases hL : topicsLookup ts tid with _ | t
    · rw [hL] at hp
      rcases List.mem_append.mp hp with hp | hp
      · exact hts p hp
      · have := List.mem_singleton.mp hp
        rw [this]
    · rw [hL] at hp
      exact hts p hp
  have htotal : ((ensureTopic ts tid).map (fun kt => kt.2.messages.length)).sum = 0 := by
    apply List.sum_eq_zero
    intro x hx
    rcases List.mem_map.mp hx with ⟨p, hp, rfl⟩
    rw [hempty p hp]
    rfl
  refine ⟨h1, ?_, ?_, ?_, ?_⟩
  · rw [h1]
    exact hempty
  · rw [h1]
    rfl
  · rw [h1]
    simp only [export_finish]
    exact htotal
  · rw [h1]
    simp only [export_finish]
    refine ⟨"Все сообщения были отфильтрованы. Проверьте настройки фильтров.".data, ?_⟩
    rw [if_pos (by simp [htotal])]

/-- C7 witness: a single non-matching message against an include-only filter
short-circuits the concrete pipeline. -/
theorem empty_filter_short_circuit_witness :
    process_messages_streaming testEnv testFcfgInclude testMcfg rcForum okDL
        [helloMsg] topicsGeneral 1 st0 = (ensureTopic topicsGeneral 1, st0, []) :=
  (empty_filter_short_circuit testEnv testFcfgInclude testMcfg rcForum okDL
      [helloMsg] topicsGeneral 1 st0 0 (by decide) (by decide)).1

/-- The text pass appends exactly one record per item, in item order, to the
target topic. -/
theorem textPass_lookup (env : PipelineEnv) (mcfg : MediaConfig) (rc : RenderCfg)
    (items : List SortItem) :
    ∀ (ts : Topics) (tid : Nat) (t0 : TopicData), topicsLookup ts tid = some t0 →
      topicsLookup (textPass env mcfg rc items ts tid) tid =
        some { t0 with messages :=
          t0.messages ++ items.filterMap (itemRecord env mcfg rc tid) } := by
  induction items with
  | nil =>
    intro ts tid t0 h
    simpa [textPass] using h
  | cons it rest ih =>
    intro ts tid t0 h
    have hfold : textPass env mcfg rc (it :: rest) ts tid =
        textPass env mcfg rc rest (processItemText env mcfg rc ts tid it) tid := rfl
    rw [hfold]
    cases it with
    | group d msgs =>
      cases msgs with
      | nil =>
        have hstep : processItemText env mcfg rc ts tid (SortItem.group d []) = ts := rfl
        rw [hstep]
        simpa [List.filterMap_cons, itemRecord] using ih ts tid t0 h
      | cons f fr =>
        have hstep : topicsLookup
            (processItemText env mcfg rc ts tid (SortItem.group d (f :: fr))) tid =
            some { t0 with messages :=
              t0.messages ++ [groupRecord env mcfg rc f (f :: fr) tid] } := by
          show topicsLookup (process_message_group_text_only env mcfg rc (f :: fr) ts tid)
              tid = _
          unfold process_message_group_text_only
          rw [ensureTopic_of_mem ts tid t0 h]
          exact topicsLookup_appendRecord ts tid _ t0 h
        rw [ih _ tid _ hstep]
        simp [List.filterMap_cons, itemRecord, List.append_assoc]
    | single d m =>
      have hstep : topicsLookup
          (processItemText env mcfg rc ts tid (SortItem.single d m)) tid =
          some { t0 with messages :=
            t0.messages ++ [singleRecord env mcfg rc m tid] } := by
        show topicsLookup (process_single_message_text_only env mcfg rc m ts tid) tid = _
        unfold process_single_message_text_only
        rw [ensureTopic_of_mem ts tid t0 h]
        exact topicsLookup_appendRecord ts tid _ t0 h
      rw [ih _ tid _ hstep]
      simp [List.filterMap_cons, itemRecord, List.append_assoc]

/-- Appending media alters only the body of the first matching record: ids
and order are untouched. -/
theorem addMediaToList_map_id (msg_id : Nat) (html : Str) (l : List MessageData) :
    (addMediaToList msg_id html l).map (fun r => r.id) = l.map (fun r => r.id) := by
  induction l with
  | nil => rfl
  | cons r rest ih =>
    simp only [addMediaToList]
    split
    · simp only [List.map_cons]
      congr 1
      unfold append_media_to_content
      split <;> rfl
    · simp only [List.map_cons, ih]

/-- The media dictionary update preserves every topic's record-id sequence. -/
theorem addMediaTopics_lookup_ids (tid msg_id : Nat) (html : Str) (ts : Topics)
    (k : Nat) :
    (topicsLookup (addMediaTopics tid msg_id html ts) k).map
        (fun t => t.messages.map (fun r => r.id)) =
      (topicsLookup ts k).map (fun t => t.messages.map (fun r => r.id)) := by
  induction ts with
  | nil => rfl
  | cons kt rest ih =>
    obtain ⟨k', t⟩ := kt
    simp only [addMediaTopics]
    by_cases h : k' = tid
    · rw [if_pos h]
      simp only [topicsLookup]
      by_cases hk : k' = k
      · rw [if_pos hk, if_pos hk]
        simp [addMediaToList_map_id]
      · rw [if_neg hk, if_neg hk]
    · rw [if_neg h]
      simp only [topicsLookup]
      by_cases hk : k' = k
      · rw [if_pos hk, if_pos hk]
      · rw [if_neg hk, if_neg hk]
        exact ih

/-- `_add_media_to_message` preserves every topic's record-id sequence. -/
theorem add_media_lookup_ids (ts : Topics) (tid msg_id : Nat) (html : Str)
    (k : Nat) :
    (topicsLookup (add_media_to_message ts tid msg_id html) k).map
        (fun t => t.messages.map (fun r => r.id)) =
      (topicsLookup ts k).map (fun t => t.messages.map (fun r => r.id)) := by
  unfold add_media_to_message
  cases topicsLookup ts tid
  · rfl
  · exact addMediaTopics_lookup_ids tid msg_id html ts k

/-- The whole media pass preserves every topic's record-id sequence (the
chronologically built structure is intact during MEDIA_PASS). -/
theorem mediaLoop_lookup_ids (mcfg : MediaConfig) (dl : DLOracle) (tid : Nat)
    (ms : List RawMsg) :
    ∀ (ts : Topics) (st : MediaState) (k : Nat),
      (topicsLookup (mediaLoop mcfg dl tid ms ts st).1 k).map
          (fun t => t.messages.map (fun r => r.id)) =
        (topicsLookup ts k).map (fun t => t.messages.map (fun r => r.id)) := by
  induction ms with
  | nil => intro ts st k; rfl
  | cons m rest ih =>
    intro ts st k
    simp only [mediaLoop]
    cases hpm : (process_media mcfg dl m st).1 with
    | none =>
      simp only [hpm]
      exact ih ts _ k
    | some html =>
      simp only [hpm]
      exact (ih _ _ k).trans (add_media_lookup_ids ts tid m.id html k)

/-- C6: (i) the merged album/single item list is stably sorted ascending by
timestamp before processing (sorted and a permutation of the merged input);
(ii) the text pass appends records to the owning topic in exactly that item
order (chronological build); (iii) the media pass preserves every topic's
record-id sequence, so the chronologically built order survives MEDIA_PASS;
(iv) only the render boundary re-sorts: every rendered topic is non-empty
and its records are a permutation of the stored ones sorted descending by
identifier (newest first). -/
theorem chronological_build_and_render_sort (env : PipelineEnv) (mcfg : MediaConfig)
    (rc : RenderCfg) (dl : DLOracle) (grouped : List (Nat × List RawMsg))
    (singles : List RawMsg) (items : List SortItem) (ts ts2 ts3 : Topics)
    (tid tid2 : Nat) (t0 : TopicData) (ms : List RawMsg) (st : MediaState)
    (hts : topicsLookup ts tid = some t0) :
    (create_sorted_items grouped singles).Pairwise (fun a b => a.date ≤ b.date) ∧
    (create_sorted_items grouped singles).Perm
      (grouped.map (fun g =>
          SortItem.group ((g.2.head?.map (fun m => m.date)).getD 0) g.2) ++
        singles.map (fun m => SortItem.single m.date m)) ∧
    topicsLookup (textPass env mcfg rc items ts tid) tid =
      some { t0 with messages :=
        t0.messages ++ items.filterMap (itemRecord env mcfg rc tid) } ∧
    (∀ k, (topicsLookup (mediaLoop mcfg dl tid2 ms ts2 st).1 k).map
          (fun t => t.messages.map (fun r => r.id)) =
        (topicsLookup ts2 k).map (fun t => t.messages.map (fun r => r.id))) ∧
    (∀ t ∈ render_topics ts3,
        t.messages.Pairwise (fun a b => b.id ≤ a.id) ∧
        t.messages.isEmpty = false ∧
        ∃ k t1, topicsLookup ts3 k = some t1 ∧ t.messages.Perm t1.messages) := by
  refine ⟨?_, ?_, textPass_lookup env mcfg rc items ts tid t0 hts,
    fun k => mediaLoop_lookup_ids mcfg dl tid2 ms ts2 st k, ?_⟩
  · have hp := pySortBy_pairwise (fun a b : SortItem => decide (a.date ≤ b.date))
      (fun a b => by rcases Nat.le_total a.date b.date with h | h <;> simp [h])
      (fun a b c hab hbc => by
        simp only [decide_eq_true_eq] at hab hbc ⊢
        exact Nat.le_trans hab hbc)
      (grouped.map (fun g =>
          SortItem.group ((g.2.head?.map (fun m => m.date)).getD 0) g.2) ++
        singles.map (fun m => SortItem.single m.date m))
    exact hp.imp (fun h => of_decide_eq_true h)
  · exact pySortBy_perm _ _
  · intro t ht
    unfold render_topics at ht
    rcases List.mem_filterMap.mp ht with ⟨k, _, hmk⟩
    cases hL : topicsLookup ts3 k with
    | none => rw [hL] at hmk; cases hmk
    | some t1 =>
      rw [hL] at hmk
      have hmk' : (if t1.messages.isEmpty = true then (none : Option TopicData)
          else some { t1 with
            messages := pySortBy (fun a b => decide (b.id ≤ a.id)) t1.messages }) =
          some t := hmk
      by_cases hE : t1.messages.isEmpty = true
      · rw [if_pos hE] at hmk'; cases hmk'
      · rw [if_neg hE] at hmk'
        have ht1 : t = { t1 with
            messages := pySortBy (fun a b => decide (b.id ≤ a.id)) t1.messages } :=
          (Option.some_inj.mp hmk').symm
        have hperm : (pySortBy (fun a b : MessageData => decide (b.id ≤ a.id))
            t1.messages).Perm t1.messages := pySortBy_perm _ _
        refine ⟨?_, ?_, k, t1, hL, ?_⟩
        · rw [ht1]
          have hp := pySortBy_pairwise (fun a b : MessageData => decide (b.id ≤ a.id))
            (fun a b => by rcases Nat.le_total b.id a.id with h | h <;> simp [h])
            (fun a b c hab hbc => by
              simp only [decide_eq_true_eq] at hab hbc ⊢
              exact Nat.le_trans hbc hab)
            t1.messages
          exact hp.imp (fun h => of_decide_eq_true h)
        · have h1 : t1.messages ≠ [] := by
            intro h0
            apply hE
            rw [h0]
            rfl
          have h2 : pySortBy (fun a b : MessageData => decide (b.id ≤ a.id))
              t1.messages ≠ [] := by
            intro h0
            apply h1
            have hlen := hperm.length_eq
            rw [h0] at hlen
            exact List.length_eq_zero.mp hlen.symm
          rw [ht1]
          show (pySortBy (fun a b : MessageData => decide (b.id ≤ a.id))
              t1.messages).isEmpty = false
          cases hsl : pySortBy (fun a b : MessageData => decide (b.id ≤ a.id))
              t1.messages with
          | nil => exact absurd hsl h2
          | cons a l => rfl
        · rw [ht1]
          exact hperm

/-- C6 witness: one single item appended to the default topic of a fresh
topics map. -/
theorem chronological_build_and_render_sort_witness :
    topicsLookup (textPass testEnv testMcfg rcForum [SortItem.single 0 helloMsg]
        topicsGeneral 1) 1 =
      some { generalTopic with messages :=
        generalTopic.messages ++
          [SortItem.single 0 helloMsg].filterMap (itemRecord testEnv testMcfg rcForum 1) } :=
  (chronological_build_and_render_sort testEnv testMcfg rcForum okDL [] []
      [SortItem.single 0 helloMsg] topicsGeneral [] [] 1 1 generalTopic [] st0
      rfl).2.2.1

/-- `Char.toLower` maps nothing else to `<` (lowering only moves the ASCII
uppercase letters into `a`–`z`). -/
theorem toLower_eq_lt_iff (c : Char) : c.toLower = '<' ↔ c = '<' := by
  constructor
  · intro h
    unfold Char.toLower at h
    simp only [] at h
    by_cases hrange : c.toNat ≥ 65 ∧ c.toNat ≤ 90
    · rw [if_pos hrange] at h
      exfalso
      have hv : (c.toNat + 32).isValidChar := by
        left
        have := hrange.2
        simp [Char.toNat] at this ⊢
        omega
      have ht : (Char.ofNat (c.toNat + 32)).toNat = c.toNat + 32 := by
        rw [Char.ofNat, dif_pos hv]
        exact rfl
      rw [h] at ht
      have h60 : ('<').toNat = 60 := by decide
      rw [h60] at ht
      have := hrange.1
      omega
    · rw [if_neg hrange] at h
      exact h
  · intro h
    rw [h]
    decide

/-- A digit is never `<`. -/
theorem ne_lt_of_isReDigit (c : Char) (h : isReDigit c = true) : c ≠ '<' := by
  intro h0
  rw [h0] at h
  cases h

/-- The fuel argument of the scan worker is irrelevant as long as it covers
the input length (each step consumes at least one character). -/
theorem substFuel_irrel {G : Type} (μ : Str → Option (G × Str))
    (rep : G → Str → Str) :
    ∀ fuel1 fuel2 s, s.length ≤ fuel1 → s.length ≤ fuel2 →
      substFuel μ rep fuel1 s = substFuel μ rep fuel2 s := by
  intro fuel1
  induction fuel1 with
  | zero =>
    intro fuel2 s h1 _
    have hs : s = [] := List.eq_nil_of_length_eq_zero (Nat.le_zero.mp h1)
    subst hs
    cases fuel2 <;> rfl
  | succ fuel1 ih =>
    intro fuel2 s h1 h2
    cases s with
    | nil => cases fuel2 <;> rfl
    | cons c rest =>
      obtain ⟨f2, rfl⟩ : ∃ f2, fuel2 = f2 + 1 := by
        cases fuel2 with
        | zero => simp at h2
        | succ f2 => exact ⟨f2, rfl⟩
      rw [substFuel, substFuel]
      cases hμ : μ (c :: rest) with
      | none =>
        simp only [List.length_cons] at h1 h2
        exact congrArg (c :: ·) (ih f2 rest (by omega) (by omega))
      | some gr =>
        obtain ⟨g, r⟩ := gr
        refine congrArg (rep g ((c :: rest).take _) ++ ·) ?_
        have hdl : ((c :: rest).drop
            (max ((c :: rest).length - r.length) 1)).length ≤ rest.length := by
          simp only [List.length_drop, List.length_cons]
          omega
        simp only [List.length_cons] at h1 h2
        exact ih f2 _ (by omega) (by omega)

/-- The scan on an input whose length is covered by the fuel equals the
wrapper. -/
theorem substFuel_eq_subst {G : Type} (μ : Str → Option (G × Str))
    (rep : G → Str → Str) (fuel : Nat) (s : Str) (h : s.length ≤ fuel) :
    substFuel μ rep fuel s = subst μ rep s :=
  substFuel_irrel μ rep fuel s.length s h (Nat.le_refl _)

/-- A failing head position keeps the character and scans the tail. -/
theorem subst_cons_none {G : Type} (μ : Str → Option (G × Str))
    (rep : G → Str → Str) (c : Char) (rest : Str) (h : μ (c :: rest) = none) :
    subst μ rep (c :: rest) = c :: subst μ rep rest := by
  show substFuel μ rep (c :: rest).length (c :: rest) = _
  rw [List.length_cons, substFuel, h]
  rfl

/-- Scanning a string without match positions is the identity. -/
theorem subst_of_noMatch {G : Type} (μ : Str → Option (G × Str))
    (rep : G → Str → Str) (s : Str) (h : NoMatch μ s) : subst μ rep s = s := by
  induction s with
  | nil => rfl
  | cons c rest ih =>
    have h0 : μ (c :: rest) = none := h 0
    rw [subst_cons_none μ rep c rest h0]
    exact congrArg (c :: ·) (ih (fun n => h (n + 1)))

/-- A match at the head of the scan emits the replacement (on the captured
groups and the matched slice) and resumes after the match. -/
theorem subst_match_at_head {G : Type} (μ : Str → Option (G × Str))
    (rep : G → Str → Str) (s : Str) (g : G) (r : Str)
    (h : μ s = some (g, r)) (hlen : r.length < s.length)
    (hdrop : s.drop (s.length - r.length) = r) :
    subst μ rep s = rep g (s.take (s.length - r.length)) ++ subst μ rep r := by
  cases s with
  | nil => simp at hlen
  | cons c rest =>
    have hstep : subst μ rep (c :: rest) =
        rep g ((c :: rest).take ((c :: rest).length - r.length)) ++
          substFuel μ rep rest.length
            ((c :: rest).drop (max ((c :: rest).length - r.length) 1)) := by
      show substFuel μ rep (rest.length + 1) (c :: rest) = _
      rw [substFuel, h]
    rw [hstep]
    have hmax : max ((c :: rest).length - r.length) 1 = (c :: rest).length - r.length := by
      simp only [List.length_cons]
      simp only [List.length_cons] at hlen
      omega
    rw [hmax, hdrop]
    refine congrArg (rep g ((c :: rest).take _) ++ ·) ?_
    exact substFuel_eq_subst μ rep rest.length r
      (by simp only [List.length_cons] at hlen; omega)

/-- `NoMatch` is preserved by consing a failing head. -/
theorem noMatch_cons {G : Type} (μ : Str → Option (G × Str)) (c : Char) (s : Str)
    (h0 : μ (c :: s) = none) (hs : NoMatch μ s) : NoMatch μ (c :: s) := by
  intro n
  cases n with
  | zero => exact h0
  | succ n => exact hs n

/-- The empty string has no match position when the matcher rejects `[]`. -/
theorem noMatch_nil {G : Type} (μ : Str → Option (G × Str)) (h : μ [] = none) :
    NoMatch μ [] := by
  intro n
  rw [List.drop_nil]
  exact h

/-- Prepending a block of characters that can never start a match preserves
`NoMatch` (the head-failure criterion sees the full suffix, so spanning
matches are excluded too). -/
theorem noMatch_append_of_no_lt {G : Type} (μ : Str → Option (G × Str))
    (hhead : ∀ c s, c ≠ '<' → μ (c :: s) = none)
    (a : Str) (ha : ∀ c ∈ a, c ≠ '<') :
    ∀ b : Str, NoMatch μ b → NoMatch μ (a ++ b) := by
  induction a with
  | nil => intro b hb; simpa using hb
  | cons c a ih =>
    intro b hb
    rw [List.cons_append]
    exact noMatch_cons μ c (a ++ b)
      (hhead c (a ++ b) (ha c (List.mem_cons_self c a)))
      (ih (fun x hx => ha x (List.mem_cons_of_mem c hx)) b hb)

/-- The scan of a string whose prefix positions all fail skips the prefix. -/
theorem subst_append_of_noPre {G : Type} (μ : Str → Option (G × Str))
    (rep : G → Str → Str) (a : Str) :
    ∀ b : Str, (∀ c s, c ≠ '<' → μ (c :: s) = none) → (∀ c ∈ a, c ≠ '<') →
      subst μ rep (a ++ b) = a ++ subst μ rep b := by
  induction a with
  | nil => intro b _ _; simp
  | cons c a ih =>
    intro b hhead ha
    rw [List.cons_append,
      subst_cons_none μ rep c (a ++ b) (hhead c (a ++ b) (ha c (List.mem_cons_self c a)))]
    exact congrArg (c :: ·) (ih b hhead (fun x hx => ha x (List.mem_cons_of_mem c hx)))

/-- A position whose character is not `<` can never start an anchor match
(the patterns all begin with the literal `<a`). -/
theorem matchForumMsgLink_none_head (c : Char) (s : Str) (hc : c ≠ '<') :
    matchForumMsgLink (c :: s) = none := by
  have h1 : parseLitCI ('<' :: 'a' :: []) (c :: s) = none := by
    unfold parseLitCI
    rw [if_neg (fun h => hc ((toLower_eq_lt_iff c).mp h))]
  simp only [matchForumMsgLink, parseLinkHead, parseAnchorStart, h1]

/-- Same head criterion for the two-number patterns. -/
theorem matchTwoNumLink_none_head (b : Bool) (c : Char) (s : Str) (hc : c ≠ '<') :
    matchTwoNumLink b (c :: s) = none := by
  have h1 : parseLitCI ('<' :: 'a' :: []) (c :: s) = none := by
    unfold parseLitCI
    rw [if_neg (fun h => hc ((toLower_eq_lt_iff c).mp h))]
  simp only [matchTwoNumLink, parseLinkHead, parseAnchorStart, h1]

/-- A failing literal comparison fails the case-sensitive literal parser. -/
theorem parseLitCS_none_of_not_prefix (lit : Str) :
    ∀ s : Str, lit.isPrefixOf s = false → parseLitCS lit s = none := by
  induction lit with
  | nil => intro s h; simp [List.isPrefixOf] at h
  | cons l ls ih =>
    intro s h
    cases s with
    | nil => rfl
    | cons c s' =>
      simp only [List.isPrefixOf, Bool.and_eq_false_iff] at h
      unfold parseLitCS
      by_cases hcl : c = l
      · rw [if_pos hcl]
        apply ih
        rcases h with h | h
        · exfalso
          rw [beq_eq_false_iff_ne] at h
          exact h hcl.symm
        · exact h
      · rw [if_neg hcl]

/-- A position where `class="` is not a literal prefix never starts a match
of the inner class pattern. -/
theorem matchClassAttr_none_of_not_prefix (s : Str)
    (h : "class=\"".data.isPrefixOf s = false) : matchClassAttr s = none := by
  simp only [matchClassAttr, parseLitCS_none_of_not_prefix "class=\"".data s h]

/-- `\d+` consumes exactly a maximal digit run. -/
theorem parseDigits1Aux_append (D r : Str) (hD : D.all isReDigit = true)
    (hr : headNotDigit r) : parseDigits1Aux (D ++ r) = (D, r) := by
  induction D with
  | nil =>
    cases r with
    | nil => rfl
    | cons c r' =>
      simp only [headNotDigit] at hr
      simp [parseDigits1Aux, hr]
  | cons d D ih =>
    simp only [List.all_cons, Bool.and_eq_true] at hD
    simp [parseDigits1Aux, hD.1, ih hD.2]

/-- `(\d+)` on a digit run followed by a non-digit boundary. -/
theorem parseDigits1_append (D r : Str) (hne : D ≠ []) (hD : D.all isReDigit = true)
    (hr : headNotDigit r) : parseDigits1 (D ++ r) = some (D, r) := by
  cases D with
  | nil => exact absurd rfl hne
  | cons d D' =>
    unfold parseDigits1
    rw [parseDigits1Aux_append (d :: D') r hD hr]
    rfl

/-- `([^>]*)>` captures up to the first `>`. -/
theorem parseAttrsAux_append (attrs r : Str) (h : '>' ∉ attrs) :
    parseAttrsAux (attrs ++ '>' :: r) = some (attrs, r) := by
  induction attrs with
  | nil => rfl
  | cons c a ih =>
    have hc : c ≠ '>' := fun h0 => h (h0 ▸ List.mem_cons_self c a)
    simp only [List.cons_append, parseAttrsAux, List.append_eq]
    rw [if_neg hc, ih (fun hx => h (List.mem_cons_of_mem c hx))]

/-- `([^"]*)"` captures up to the closing quote. -/
theorem parseClassVal_append (v b : Str) (hv : '"' ∉ v) :
    parseClassVal (v ++ '"' :: b) = some (v, b) := by
  induction v with
  | nil => rfl
  | cons c v' ih =>
    have hc : c ≠ '"' := fun h0 => hv (h0 ▸ List.mem_cons_self c v')
    simp only [List.cons_append, parseClassVal, List.append_eq]
    rw [if_neg hc, ih (fun hx => hv (List.mem_cons_of_mem c hx))]

/-- The lazy `(.*?)</a>` stops at the earliest close tag; a `<`-free text
cannot contain or start one. -/
theorem parseUntilCloseA_append (text r : Str) (h : '<' ∉ text) :
    parseUntilCloseA (text ++ ('<' :: '/' :: 'a' :: '>' :: r)) = some (text, r) := by
  induction text with
  | nil =>
    simp only [List.nil_append]
    rfl
  | cons c t ih =>
    have hc : c ≠ '<' := fun h0 => h (h0 ▸ List.mem_cons_self c t)
    have hlit : parseLitCI ('<' :: '/' :: 'a' :: '>' :: [])
        (c :: (t ++ ('<' :: '/' :: 'a' :: '>' :: r))) = none := by
      unfold parseLitCI
      rw [if_neg (fun h0 => hc ((toLower_eq_lt_iff c).mp h0))]
    simp only [List.cons_append, parseUntilCloseA, List.append_eq, hlit,
      ih (fun hx => h (List.mem_cons_of_mem c hx))]

/-- All characters of a digit run are distinct from `<`. -/
theorem all_digits_no_lt (D : Str) (h : D.all isReDigit = true) :
    ∀ c ∈ D, c ≠ '<' := by
  intro c hc
  rw [List.all_eq_true] at h
  exact ne_lt_of_isReDigit c (h c hc)

/-- The shared pattern head on the canonical link shape. -/
theorem parseLinkHead_canonical (C T X : Str) (hC : C ≠ [])
    (hCd : C.all isReDigit = true) (hT : T ≠ []) (hTd : T.all isReDigit = true)
    (hX : headNotDigit X) :
    parseLinkHead ("<a href=\"https://t.me/c/".data ++ (C ++ ('/' :: (T ++ X)))) =
      some (C, T, X) := by
  have h1 : parseAnchorStart
      ("<a href=\"https://t.me/c/".data ++ (C ++ ('/' :: (T ++ X)))) =
      some ("href=\"https://t.me/c/".data ++ (C ++ ('/' :: (T ++ X)))) := rfl
  have h2 : parseLitCI "href=\"https://t.me/c/".data
      ("href=\"https://t.me/c/".data ++ (C ++ ('/' :: (T ++ X)))) =
      some (C ++ ('/' :: (T ++ X))) := rfl
  have h3 : parseDigits1 (C ++ ('/' :: (T ++ X))) = some (C, '/' :: (T ++ X)) :=
    parseDigits1_append C ('/' :: (T ++ X)) hC hCd (by exact (by decide : isReDigit '/' = false))
  have h4 : parseDigits1 (T ++ X) = some (T, X) := parseDigits1_append T X hT hTd hX
  simp only [parseLinkHead, h1, h2, h3, h4]

/-- The shared pattern tail on the canonical link shape. -/
theorem parseLinkTail_canonical (attrs text r : Str) (ha : '>' ∉ attrs)
    (ht : '<' ∉ text) :
    parseLinkTail ('"' :: (attrs ++ ('>' :: (text ++ ('<' :: '/' :: 'a' :: '>' :: r))))) =
      some (attrs, text, r) := by
  have h1 : parseQueryQuote
      ('"' :: (attrs ++ ('>' :: (text ++ ('<' :: '/' :: 'a' :: '>' :: r))))) =
      some (attrs ++ ('>' :: (text ++ ('<' :: '/' :: 'a' :: '>' :: r)))) := rfl
  have h2 := parseAttrsAux_append attrs (text ++ ('<' :: '/' :: 'a' :: '>' :: r)) ha
  have h3 := parseUntilCloseA_append text r ht
  simp only [parseLinkTail, h1, h2, h3]

/-- The forum message pattern matches the canonical three-number anchor,
capturing the three numbers, the attributes and the text. -/
theorem matchForumMsgLink_canonical (C T M attrs text r : Str) (hC : C ≠ [])
    (hCd : C.all isReDigit = true) (hT : T ≠ []) (hTd : T.all isReDigit = true)
    (hM : M ≠ []) (hMd : M.all isReDigit = true) (ha : '>' ∉ attrs)
    (ht : '<' ∉ text) :
    matchForumMsgLink ("<a href=\"https://t.me/c/".data ++
        (C ++ ('/' :: (T ++ ('/' :: (M ++ ('"' :: (attrs ++
          ('>' :: (text ++ ('<' :: '/' :: 'a' :: '>' :: r))))))))))) =
      some (⟨C, T, some M, attrs, text⟩, r) := by
  have h1 := parseLinkHead_canonical C T
    ('/' :: (M ++ ('"' :: (attrs ++ ('>' :: (text ++ ('<' :: '/' :: 'a' :: '>' :: r)))))))
    hC hCd hT hTd (by exact (by decide : isReDigit '/' = false))
  have h2 : parseDigits1
      (M ++ ('"' :: (attrs ++ ('>' :: (text ++ ('<' :: '/' :: 'a' :: '>' :: r)))))) =
      some (M, '"' :: (attrs ++ ('>' :: (text ++ ('<' :: '/' :: 'a' :: '>' :: r))))) :=
    parseDigits1_append M _ hM hMd (by exact (by decide : isReDigit '"' = false))
  have h3 := parseLinkTail_canonical attrs text r ha ht
  simp only [matchForumMsgLink, h1, h2, h3]

/-- The topic pattern's negative lookahead rejects the three-number anchor
(a digit follows the slash after the second number). -/
theorem matchTwoNumLink_lookahead_none (C T : Str) (d : Char) (X : Str)
    (hC : C ≠ []) (hCd : C.all isReDigit = true) (hT : T ≠ [])
    (hTd : T.all isReDigit = true) (hd : isReDigit d = true) :
    matchTwoNumLink true ("<a href=\"https://t.me/c/".data ++
        (C ++ ('/' :: (T ++ ('/' :: (d :: X)))))) = none := by
  have h1 := parseLinkHead_canonical C T ('/' :: (d :: X)) hC hCd hT hTd
    (by exact (by decide : isReDigit '/' = false))
  simp only [matchTwoNumLink, h1, hd]
  rfl

/-- No position of an already-internal (`#`-href) anchor with `<`-free
interior starts a forum message-pattern match. -/
theorem noMatch_hash_msg (mid : Str) (hmid : ∀ c ∈ mid, c ≠ '<') :
    NoMatch matchForumMsgLink
      ('<' :: ("a href=\"#".data ++ (mid ++ ('<' :: '/' :: 'a' :: '>' :: [])))) := by
  refine noMatch_cons _ _ _ rfl ?_
  refine noMatch_append_of_no_lt _ matchForumMsgLink_none_head _ (by decide) _ ?_
  refine noMatch_append_of_no_lt _ matchForumMsgLink_none_head _ hmid _ ?_
  refine noMatch_cons _ _ _ rfl ?_
  exact noMatch_append_of_no_lt _ matchForumMsgLink_none_head
    ('/' :: 'a' :: '>' :: []) (by decide) [] (noMatch_nil _ rfl)

/-- Same for the two-number patterns (topic and flat-chat). -/
theorem noMatch_hash_two (b : Bool) (mid : Str) (hmid : ∀ c ∈ mid, c ≠ '<') :
    NoMatch (matchTwoNumLink b)
      ('<' :: ("a href=\"#".data ++ (mid ++ ('<' :: '/' :: 'a' :: '>' :: [])))) := by
  refine noMatch_cons _ _ _ rfl ?_
  refine noMatch_append_of_no_lt _ (matchTwoNumLink_none_head b) _ (by decide) _ ?_
  refine noMatch_append_of_no_lt _ (matchTwoNumLink_none_head b) _ hmid _ ?_
  refine noMatch_cons _ _ _ rfl ?_
  exact noMatch_append_of_no_lt _ (matchTwoNumLink_none_head b)
    ('/' :: 'a' :: '>' :: []) (by decide) [] (noMatch_nil _ rfl)

/-- Characters of an append with `<`-free parts. -/
theorem no_lt_append {a b : Str} (ha : ∀ c ∈ a, c ≠ '<') (hb : ∀ c ∈ b, c ≠ '<') :
    ∀ c ∈ a ++ b, c ≠ '<' := by
  intro c hc
  rcases List.mem_append.mp hc with h | h
  · exact ha c h
  · exact hb c h

/-- A `∉`-style hypothesis gives the pointwise form. -/
theorem no_lt_of_not_mem {a : Str} (ha : '<' ∉ a) : ∀ c ∈ a, c ≠ '<' :=
  fun _ hc h0 => ha (h0 ▸ hc)

/-- The scan skips any prefix none of whose positions starts a match. -/
theorem subst_append_of_fail {G : Type} (μ : Str → Option (G × Str))
    (rep : G → Str → Str) (a : Str) :
    ∀ b : Str, (∀ i, i < a.length → μ ((a ++ b).drop i) = none) →
      subst μ rep (a ++ b) = a ++ subst μ rep b := by
  induction a with
  | nil => intro b _; simp
  | cons c a' ih =>
    intro b h
    have h0 : μ (c :: (a' ++ b)) = none := by
      have := h 0 (by simp)
      simpa using this
    rw [List.cons_append, subst_cons_none μ rep c (a' ++ b) h0]
    refine congrArg (c :: ·) (ih b ?_)
    intro i hi
    have := h (i + 1) (by simpa using Nat.succ_lt_succ hi)
    simpa using this

/-- A match at position 0 that consumes the whole string replaces it. -/
theorem subst_full_match {G : Type} (μ : Str → Option (G × Str))
    (rep : G → Str → Str) (s : Str) (g : G)
    (h : μ s = some (g, [])) (hne : s ≠ []) :
    subst μ rep s = rep g s := by
  have hlen : (0 : Nat) < s.length := List.length_pos.mpr hne
  have hd : s.drop (s.length - ([] : Str).length) = ([] : Str) := by simp
  have := subst_match_at_head μ rep s g [] h (by simpa using hlen) hd
  simpa [subst, substFuel] using this

/-- `strIn` is monotone under prepending. -/
theorem strIn_append_right (n x s : Str) (h : strIn n s = true) :
    strIn n (x ++ s) = true := by
  induction x with
  | nil => simpa using h
  | cons c x' ih => simp [strIn, ih]

/-- The quoted class block makes `"class=" in attributes` true. -/
theorem strIn_class_marker (v b : Str) :
    strIn "class=".data ("class=\"".data ++ (v ++ ('"' :: b))) = true := rfl

/-- `addInternalClass` with no `class=` in the attributes prepends the fresh
class attribute. -/
theorem addInternalClass_no_class (attrs : Str)
    (h : strIn "class=".data attrs = false) :
    addInternalClass attrs = " class=\"internal-link\"".data ++ attrs := by
  simp [addInternalClass, h]

/-- The inner class matcher on the canonical quoted block. -/
theorem matchClassAttr_canonical (v b : Str) (hv : '"' ∉ v) :
    matchClassAttr ("class=\"".data ++ (v ++ ('"' :: b))) = some (v, b) := by
  have h1 : parseLitCS "class=\"".data ("class=\"".data ++ (v ++ ('"' :: b))) =
      some (v ++ ('"' :: b)) := rfl
  have h2 := parseClassVal_append v b hv
  simp only [matchClassAttr, h1, h2]

/-- `addInternalClass` on attributes holding exactly one double-quoted class
attribute appends ` internal-link` inside its value and leaves the rest. -/
theorem addInternalClass_quoted (a v b : Str) (hv : '"' ∉ v)
    (hnoa : ∀ i, i < a.length →
      "class=\"".data.isPrefixOf
        ((a ++ ("class=\"".data ++ (v ++ ('"' :: b)))).drop i) = false)
    (hnob : ∀ i, "class=\"".data.isPrefixOf (b.drop i) = false) :
    addInternalClass (a ++ ("class=\"".data ++ (v ++ ('"' :: b)))) =
      a ++ ("class=\"".data ++ (v ++ (" internal-link\"".data ++ b))) := by
  have hIn : strIn "class=".data (a ++ ("class=\"".data ++ (v ++ ('"' :: b)))) = true :=
    strIn_append_right _ a _ (strIn_class_marker v b)
  unfold addInternalClass
  rw [hIn]
  simp only [if_true]
  rw [subst_append_of_fail _ _ a _
    (fun i hi => matchClassAttr_none_of_not_prefix _ (hnoa i hi))]
  have hX : ("class=\"".data ++ (v ++ ('"' :: b))) =
      (("class=\"".data ++ v) ++ ['"']) ++ b := by
    simp [List.append_assoc]
  have hmatch : matchClassAttr ((("class=\"".data ++ v) ++ ['"']) ++ b) = some (v, b) := by
    rw [← hX]
    exact matchClassAttr_canonical v b hv
  have hlenpre : ((("class=\"".data ++ v) ++ ['"']) ++ b).length - b.length =
      (("class=\"".data ++ v) ++ ['"']).length := by
    simp
    omega
  have hdrop : ((("class=\"".data ++ v) ++ ['"']) ++ b).drop
      (((("class=\"".data ++ v) ++ ['"']) ++ b).length - b.length) = b := by
    rw [hlenpre]
    exact List.drop_left _ _
  have hlen : b.length < ((("class=\"".data ++ v) ++ ['"']) ++ b).length := by
    simp
    omega
  have hsub := subst_match_at_head matchClassAttr
    (fun w _ => "class=\"".data ++ w ++ " internal-link\"".data)
    ((("class=\"".data ++ v) ++ ['"']) ++ b) v b hmatch hlen hdrop
  rw [hX, hsub]
  rw [subst_of_noMatch _ _ b
    (fun n => matchClassAttr_none_of_not_prefix _ (hnob n))]
  simp [List.append_assoc]

/-- The topic pattern finds no match anywhere in a canonical three-number
anchor: position 0 dies on the negative lookahead, and no interior position
of a `<`-free-interior anchor can start a match. -/
theorem noMatch_topic_on_forum_anchor (C T M attrs text : Str) (hC : C ≠ [])
    (hCd : C.all isReDigit = true) (hT : T ≠ []) (hTd : T.all isReDigit = true)
    (hM : M ≠ []) (hMd : M.all isReDigit = true) (hA : '<' ∉ attrs)
    (hTx : '<' ∉ text) :
    NoMatch (matchTwoNumLink true) (forumMsgAnchor C T M attrs text) := by
  obtain ⟨dM, M', rfl⟩ : ∃ d M', M = d :: M' := by
    cases M with
    | nil => exact absurd rfl hM
    | cons d M' => exact ⟨d, M', rfl⟩
  have hdM : isReDigit dM = true := by
    simp only [List.all_cons, Bool.and_eq_true] at hMd
    exact hMd.1
  have hMd' : M'.all isReDigit = true := by
    simp only [List.all_cons, Bool.and_eq_true] at hMd
    exact hMd.2
  have hshape : forumMsgAnchor C T (dM :: M') attrs text =
      '<' :: ("a href=\"https://t.me/c/".data ++ (C ++ ('/' :: (T ++ ('/' ::
        (dM :: (M' ++ ('"' :: (attrs ++ ('>' :: (text ++
          ('<' :: '/' :: 'a' :: '>' :: [])))))))))))) := rfl
  rw [hshape]
  have hhead := matchTwoNumLink_none_head true
  refine noMatch_cons _ _ _ ?_ ?_
  · show matchTwoNumLink true ("<a href=\"https://t.me/c/".data ++ (C ++ ('/' ::
      (T ++ ('/' :: (dM :: (M' ++ ('"' :: (attrs ++ ('>' :: (text ++
        ('<' :: '/' :: 'a' :: '>' :: [])))))))))))) = none
    exact matchTwoNumLink_lookahead_none C T dM _ hC hCd hT hTd hdM
  refine noMatch_append_of_no_lt _ hhead _ (by decide) _ ?_
  refine noMatch_append_of_no_lt _ hhead _ (all_digits_no_lt C hCd) _ ?_
  refine noMatch_cons _ _ _ (hhead '/' _ (by decide)) ?_
  refine noMatch_append_of_no_lt _ hhead _ (all_digits_no_lt T hTd) _ ?_
  refine noMatch_cons _ _ _ (hhead '/' _ (by decide)) ?_
  refine noMatch_cons _ _ _ (hhead dM _ (ne_lt_of_isReDigit dM hdM)) ?_
  refine noMatch_append_of_no_lt _ hhead _ (all_digits_no_lt M' hMd') _ ?_
  refine noMatch_cons _ _ _ (hhead '"' _ (by decide)) ?_
  refine noMatch_append_of_no_lt _ hhead _ (no_lt_of_not_mem hA) _ ?_
  refine noMatch_cons _ _ _ (hhead '>' _ (by decide)) ?_
  refine noMatch_append_of_no_lt _ hhead _ (no_lt_of_not_mem hTx) _ ?_
  refine noMatch_cons _ _ _ rfl ?_
  exact noMatch_append_of_no_lt _ hhead ('/' :: 'a' :: '>' :: []) (by decide) []
    (noMatch_nil _ rfl)

/-- No position of an already-internal (`#`-href) anchor with `<`-free
chunks between the href and the close tag starts a forum message-pattern
match. -/
theorem noMatch_msg_chunks (chunks : List Str)
    (h : ∀ p ∈ chunks, ∀ c ∈ p, c ≠ '<') :
    NoMatch matchForumMsgLink
      ('<' :: ("a href=\"#".data ++ catChunks chunks)) := by
  have hmid : ∀ (cs : List Str), (∀ p ∈ cs, ∀ c ∈ p, c ≠ '<') →
      NoMatch matchForumMsgLink (catChunks cs) := by
    intro cs
    induction cs with
    | nil =>
      intro _
      refine noMatch_cons _ _ _ rfl ?_
      exact noMatch_append_of_no_lt _ matchForumMsgLink_none_head
        ('/' :: 'a' :: '>' :: []) (by decide) [] (noMatch_nil _ rfl)
    | cons p cs ih =>
      intro hp
      exact noMatch_append_of_no_lt _ matchForumMsgLink_none_head p
        (hp p (List.mem_cons_self p cs))
        _ (ih (fun q hq => hp q (List.mem_cons_of_mem p hq)))
  refine noMatch_cons _ _ _ rfl ?_
  exact noMatch_append_of_no_lt _ matchForumMsgLink_none_head _ (by decide) _
    (hmid chunks h)

/-- Same for the two-number patterns. -/
theorem noMatch_two_chunks (b : Bool) (chunks : List Str)
    (h : ∀ p ∈ chunks, ∀ c ∈ p, c ≠ '<') :
    NoMatch (matchTwoNumLink b)
      ('<' :: ("a href=\"#".data ++ catChunks chunks)) := by
  have hmid : ∀ (cs : List Str), (∀ p ∈ cs, ∀ c ∈ p, c ≠ '<') →
      NoMatch (matchTwoNumLink b) (catChunks cs) := by
    intro cs
    induction cs with
    | nil =>
      intro _
      refine noMatch_cons _ _ _ rfl ?_
      exact noMatch_append_of_no_lt _ (matchTwoNumLink_none_head b)
        ('/' :: 'a' :: '>' :: []) (by decide) [] (noMatch_nil _ rfl)
    | cons p cs ih =>
      intro hp
      exact noMatch_append_of_no_lt _ (matchTwoNumLink_none_head b) p
        (hp p (List.mem_cons_self p cs))
        _ (ih (fun q hq => hp q (List.mem_cons_of_mem p hq)))
  refine noMatch_cons _ _ _ rfl ?_
  exact noMatch_append_of_no_lt _ (matchTwoNumLink_none_head b) _ (by decide) _
    (hmid chunks h)

/-- The message replacer on an internal match with a three-number link. -/
theorem replace_forum_message_link_internal (rc : RenderCfg) (g : LinkMatch)
    (whole M : Str) (hg : g.num3 = some M)
    (hint : isExternalChat rc (digitsToNat g.chat) = false) :
    replace_forum_message_link rc g whole =
      "<a href=\"#msg-".data ++ M ++ "\"".data ++
        (addInternalClass g.attrs ++ " data-msg-id=\"".data ++ M ++
          "\" data-topic-id=\"".data ++ g.num2 ++ "\"".data) ++
        ">".data ++ g.text ++ "</a>".data := by
  simp [replace_forum_message_link, hint, hg, List.append_assoc]

set_option maxRecDepth 40000 in
/-- C3 counterexample: on a forum message link to the current chat whose
anchor carries an unquoted class value (`class=x`), the rewriter adds NO
`internal-link` class at all — neither appended to the existing class value
nor as a new class attribute — because the `class=` membership test
suppresses the new attribute while the inner quoted-value pattern finds
nothing to extend; href and data attributes are still rewritten. -/
theorem forum_link_unquoted_class_counterexample :
    transform_telegram_links rcForum unquotedClassAnchor =
      "<a href=\"#msg-3\" class=x data-msg-id=\"3\" data-topic-id=\"2\">t</a>".data ∧
    strIn "internal-link".data (transform_telegram_links rcForum unquotedClassAnchor) =
      false := by
  decide

/-- C3 (amended): for a canonical forum message-link anchor
`.../c/{chat}/{topic}/{message}` in a forum-style rewriter: (1) when the
embedded chat id differs from the current chat id the anchor is
byte-identical to the input; (2) when it matches and the attributes contain
no `class=` substring, the href is rewritten to `#msg-{message}`, a new
`class="internal-link"` attribute is added, and `data-msg-id` /
`data-topic-id` attributes carry the two numeric ids; (3) the
`internal-link` class is appended into an existing class value only when
that value is double-quoted (`class="..."`). -/
theorem forum_message_link_rewrite (rc : RenderCfg) (C T M attrs text : Str)
    (hforum : rc.is_forum = true) (hC : C ≠ []) (hCd : C.all isReDigit = true)
    (hT : T ≠ []) (hTd : T.all isReDigit = true) (hM : M ≠ [])
    (hMd : M.all isReDigit = true) (ha : '>' ∉ attrs) (hA : '<' ∉ attrs)
    (hTx : '<' ∉ text) :
    (isExternalChat rc (digitsToNat C) = true →
      transform_telegram_links rc (forumMsgAnchor C T M attrs text) =
        forumMsgAnchor C T M attrs text) ∧
    (isExternalChat rc (digitsToNat C) = false →
      strIn "class=".data attrs = false →
      transform_telegram_links rc (forumMsgAnchor C T M attrs text) =
        "<a href=\"#msg-".data ++ (M ++ ("\" class=\"internal-link\"".data ++
          (attrs ++ (" data-msg-id=\"".data ++ (M ++ ("\" data-topic-id=\"".data ++
            (T ++ ("\">".data ++ (text ++ "</a>".data)))))))))) ∧
    (∀ a v b, '"' ∉ v →
      (∀ i, i < a.length →
        "class=\"".data.isPrefixOf
          ((a ++ ("class=\"".data ++ (v ++ ('"' :: b)))).drop i) = false) →
      (∀ i, "class=\"".data.isPrefixOf (b.drop i) = false) →
      addInternalClass (a ++ ("class=\"".data ++ (v ++ ('"' :: b)))) =
        a ++ ("class=\"".data ++ (v ++ (" internal-link\"".data ++ b)))) := by
  have hmatchA : matchForumMsgLink (forumMsgAnchor C T M attrs text) =
      some (⟨C, T, some M, attrs, text⟩, []) :=
    matchForumMsgLink_canonical C T M attrs text [] hC hCd hT hTd hM hMd ha hTx
  have hne : forumMsgAnchor C T M attrs text ≠ [] := by
    rw [show forumMsgAnchor C T M attrs text =
      '<' :: ("a href=\"https://t.me/c/".data ++ (C ++ ('/' :: (T ++ ('/' ::
        (M ++ ('"' :: (attrs ++ ('>' :: (text ++ "</a>".data)))))))))) from rfl]
    exact List.cons_ne_nil _ _
  have hstep1 : ∀ rep, subst matchForumMsgLink rep (forumMsgAnchor C T M attrs text) =
      rep ⟨C, T, some M, attrs, text⟩ (forumMsgAnchor C T M attrs text) :=
    fun rep => subst_full_match matchForumMsgLink rep _ _ hmatchA hne
  have htr : transform_telegram_links rc (forumMsgAnchor C T M attrs text) =
      subst (matchTwoNumLink true) (replace_forum_topic_link rc)
        (subst matchForumMsgLink (replace_forum_message_link rc)
          (forumMsgAnchor C T M attrs text)) := by
    simp [transform_telegram_links, hforum]
  refine ⟨?_, ?_, ?_⟩
  · intro hext
    rw [htr, hstep1]
    have hrep : replace_forum_message_link rc ⟨C, T, some M, attrs, text⟩
        (forumMsgAnchor C T M attrs text) = forumMsgAnchor C T M attrs text := by
      simp [replace_forum_message_link, hext]
    rw [hrep]
    exact subst_of_noMatch _ _ _
      (noMatch_topic_on_forum_anchor C T M attrs text hC hCd hT hTd hM hMd hA hTx)
  · intro hint hncls
    rw [htr, hstep1,
      replace_forum_message_link_internal rc ⟨C, T, some M, attrs, text⟩
        (forumMsgAnchor C T M attrs text) M rfl hint,
      addInternalClass_no_class attrs hncls]
    have hfree : ∀ p ∈ ["msg-".data, M, "\"".data, " class=\"internal-link\"".data,
        attrs, " data-msg-id=\"".data, M, "\" data-topic-id=\"".data, T,
        "\"".data, ">".data, text], ∀ c ∈ p, c ≠ '<' := by
      intro p hp
      simp only [List.mem_cons, List.not_mem_nil, or_false] at hp
      rcases hp with rfl | rfl | rfl | rfl | rfl | rfl | rfl | rfl | rfl | rfl | rfl | rfl
      · decide
      · exact all_digits_no_lt _ hMd
      · decide
      · decide
      · exact no_lt_of_not_mem hA
      · decide
      · exact all_digits_no_lt _ hMd
      · decide
      · exact all_digits_no_lt _ hTd
      · decide
      · decide
      · exact no_lt_of_not_mem hTx
    have hX : "<a href=\"#msg-".data ++ M ++ "\"".data ++
        ((" class=\"internal-link\"".data ++ attrs) ++ " data-msg-id=\"".data ++ M ++
          "\" data-topic-id=\"".data ++ T ++ "\"".data) ++
        ">".data ++ text ++ "</a>".data =
        '<' :: ("a href=\"#".data ++ catChunks ["msg-".data, M, "\"".data,
          " class=\"internal-link\"".data, attrs, " data-msg-id=\"".data, M,
          "\" data-topic-id=\"".data, T, "\"".data, ">".data, text]) := by
      simp only [catChunks, List.append_assoc, List.cons_append, List.nil_append]
    rw [hX, subst_of_noMatch _ _ _ (noMatch_two_chunks true _ hfree)]
    simp only [catChunks, List.append_assoc, List.cons_append, List.nil_append]
  · exact fun a v b hv h1 h2 => addInternalClass_quoted a v b hv h1 h2

/-- Witness: concrete instances of the three parts of the amended C3
theorem — an external anchor kept byte-identical, an internal anchor with
no class attribute fully rewritten, and a quoted class value extended. -/
theorem forum_message_link_rewrite_witness :
    transform_telegram_links rcForum
        (forumMsgAnchor "5".data "2".data "3".data [] "t".data) =
      forumMsgAnchor "5".data "2".data "3".data [] "t".data ∧
    transform_telegram_links rcForum
        (forumMsgAnchor "1".data "2".data "3".data [] "t".data) =
      "<a href=\"#msg-3\" class=\"internal-link\" data-msg-id=\"3\" data-topic-id=\"2\">t</a>".data ∧
    addInternalClass " class=\"x\"".data = " class=\"x internal-link\"".data := by
  refine ⟨(forum_message_link_rewrite rcForum "5".data "2".data "3".data [] "t".data
      rfl (by decide) (by decide) (by decide) (by decide) (by decide) (by decide)
      (by decide) (by decide) (by decide)).1 (by decide), ?_, ?_⟩
  · exact (forum_message_link_rewrite rcForum "1".data "2".data "3".data [] "t".data
      rfl (by decide) (by decide) (by decide) (by decide) (by decide) (by decide)
      (by decide) (by decide) (by decide)).2.1 (by decide) (by decide)
  · exact (forum_message_link_rewrite rcForum "1".data "2".data "3".data [] "t".data
      rfl (by decide) (by decide) (by decide) (by decide) (by decide) (by decide)
      (by decide) (by decide) (by decide)).2.2 " ".data "x".data [] (by decide)
      (by decide) (fun i => by rw [List.drop_nil]; rfl)

set_option maxRecDepth 40000 in
/-- C4 counterexample: the rewriter is not idempotent. On an anchor whose
link text contains a second t.me anchor, the first run absorbs the inner
anchor as link text of the outer match; the second run then matches the
inner anchor (now exposed in the rewritten output) and rewrites it again,
so the second output differs from the first. -/
theorem rewriter_not_idempotent_nested_anchor :
    transform_telegram_links rcForum (transform_telegram_links rcForum nestedAnchor) ≠
      transform_telegram_links rcForum nestedAnchor := by
  decide

/-- C4 (amended): the rewriter never re-matches its own canonical output
shape: any already-internal anchor — `<a href="#` followed by arbitrary
`<`-free chunks (ids, class values including `internal-link`, data
attributes, link text) and the closing tag — is left byte-identical by the
rewriter under every (chat id, is_forum) configuration; so a second run
never double-appends the marker class or corrupts an already-internal
href. Full idempotence on arbitrary inputs fails (nested anchors). -/
theorem rewriter_output_not_rematched (rc : RenderCfg) (chunks : List Str)
    (h : ∀ p ∈ chunks, ∀ c ∈ p, c ≠ '<') :
    transform_telegram_links rc ('<' :: ("a href=\"#".data ++ catChunks chunks)) =
      '<' :: ("a href=\"#".data ++ catChunks chunks) := by
  cases hf : rc.is_forum with
  | true =>
    have htr : transform_telegram_links rc
        ('<' :: ("a href=\"#".data ++ catChunks chunks)) =
        subst (matchTwoNumLink true) (replace_forum_topic_link rc)
          (subst matchForumMsgLink (replace_forum_message_link rc)
            ('<' :: ("a href=\"#".data ++ catChunks chunks))) := by
      simp [transform_telegram_links, hf]
    rw [htr, subst_of_noMatch _ _ _ (noMatch_msg_chunks chunks h)]
    exact subst_of_noMatch _ _ _ (noMatch_two_chunks true chunks h)
  | false =>
    have htr : transform_telegram_links rc
        ('<' :: ("a href=\"#".data ++ catChunks chunks)) =
        subst (matchTwoNumLink false) (replace_regular_message_link rc)
          ('<' :: ("a href=\"#".data ++ catChunks chunks)) := by
      simp [transform_telegram_links, hf]
    rw [htr]
    exact subst_of_noMatch _ _ _ (noMatch_two_chunks false chunks h)

/-- Witness: a concrete already-rewritten internal anchor (the rewriter's
own output on a forum message link) is a fixed point of the rewriter. -/
theorem rewriter_output_not_rematched_witness :
    transform_telegram_links rcForum ('<' :: ("a href=\"#".data ++
        catChunks ["msg-3\" class=\"internal-link\" data-msg-id=\"3\" data-topic-id=\"2\">t".data])) =
      '<' :: ("a href=\"#".data ++
        catChunks ["msg-3\" class=\"internal-link\" data-msg-id=\"3\" data-topic-id=\"2\">t".data]) :=
  rewriter_output_not_rematched rcForum
    ["msg-3\" class=\"internal-link\" data-msg-id=\"3\" data-topic-id=\"2\">t".data]
    (by decide)
